import Mathlib

/-!
# Verification of the IPL auction bidding engine (`src/lib/db.ts`)

This file embeds the in-memory auction store of the repository into Lean:
the entity records (`Team`, `Player`, `Bid`, `Auction`, `Activity`), the
store state (`St`), and the three mutating operations `createAuction`,
`placeBid` and `completeAuction`, translated clause by clause from
`src/lib/db.ts`.  Monetary amounts (crores, fractional values such as 0.5
permitted) are modelled as rational numbers; `Date.now()` readings are
modelled as an explicit `now : Nat` argument to each operation.

The JavaScript `Map` collections are modelled as functions
`String → Option _` (`Map.get` is application, `Map.set` is `setFun`); no
claim depends on iteration order of the maps.  The per-auction bid lock of
`placeBid` is elided: the function body contains no `await`, so in any
sequential (interleaving-free) execution the lock is free at every call
entry and is always released on exit, making the lock branch dead code for
the sequential semantics modelled here.

One aliasing subtlety of the source: `auction.player` is the same object
reference as `players.get(auction.playerId)` (the map entry is mutated in
place and never replaced), so in `completeAuction` the roster push
`addPlayerToTeam(auction.currentBidder, auction.player)` observes the
status/`soldPrice` update made just before it.  The embedding reproduces
this by pushing the current players-map entry (falling back to the
creation-time snapshot when the id is absent, which cannot happen in
reachable states).
-/

namespace IplAuction

inductive PlayerRole where
  | Batsman | Bowler | AllRounder | WicketKeeper
deriving DecidableEq, Repr

inductive PlayerStatus where
  | Unsold | Live | Sold
deriving DecidableEq, Repr

inductive AuctionStatus where
  | upcoming | live | completed
deriving DecidableEq, Repr

inductive ActivityKind where
  | bid | win | auction_start | auction_end
deriving DecidableEq, Repr

structure Player where
  id : String
  name : String
  role : PlayerRole
  basePrice : ℚ
  status : PlayerStatus
  soldPrice : Option ℚ
  teamId : Option String
  nationality : String
  age : Nat
  avatar : String
deriving DecidableEq, Repr

structure Team where
  id : String
  name : String
  shortName : String
  logo : String
  totalPurse : ℚ
  remainingPurse : ℚ
  maxPlayers : Nat
  players : List Player
deriving DecidableEq, Repr

structure Bid where
  id : String
  auctionId : String
  playerId : String
  teamId : String
  teamName : String
  amount : ℚ
  timestamp : Nat
deriving DecidableEq, Repr

structure Auction where
  id : String
  playerId : String
  player : Player
  currentBid : ℚ
  currentBidder : Option String
  bids : List Bid
  status : AuctionStatus
  startTime : Nat
  endTime : Option Nat
  timerDuration : Nat
deriving DecidableEq, Repr

structure Activity where
  id : String
  type : ActivityKind
  message : String
  timestamp : Nat
  teamId : Option String
  playerId : Option String
  amount : Option ℚ
deriving DecidableEq, Repr

/-- The shape of the object returned by `placeBid`:
`{ success: boolean; error?: string; auction?: Auction }`. -/
structure BidResult where
  success : Bool
  error : Option String
  auction : Option Auction
deriving DecidableEq, Repr

/-- The mutable store of `db.ts`: the `teams`, `players` and `auctions`
maps and the `activities` array. -/
structure St where
  teams : String → Option Team
  players : String → Option Player
  auctions : String → Option Auction
  activities : List Activity

/-- `Map.set` on a map modelled as a function. -/
def setFun {α : Type} (m : String → Option α) (k : String) (v : α) :
    String → Option α :=
  fun i => if i = k then some v else m i

theorem setFun_same {α : Type} (m : String → Option α) (k : String) (v : α) :
    setFun m k v k = some v := by
  simp [setFun]

theorem setFun_other {α : Type} (m : String → Option α) (k : String) (v : α)
    (i : String) (h : i ≠ k) : setFun m k v i = m i := by
  simp [setFun, h]

/-- `updateTeamPurse(teamId, newPurse)` from `db.ts`: sets
`team.remainingPurse = newPurse`, a silent no-op when the team is absent. -/
def updateTeamPurse (st : St) (teamId : String) (newPurse : ℚ) : St :=
  match st.teams teamId with
  | some team =>
      { st with teams := setFun st.teams teamId ({ team with remainingPurse := newPurse }) }
  | none => st

/-- `addPlayerToTeam(teamId, player)` from `db.ts`: pushes the player onto
`team.players`, a silent no-op when the team is absent. -/
def addPlayerToTeam (st : St) (teamId : String) (player : Player) : St :=
  match st.teams teamId with
  | some team =>
      { st with teams := setFun st.teams teamId ({ team with players := team.players ++ [player] }) }
  | none => st

/-- `updatePlayerStatus(playerId, status, teamId?, soldPrice?)` from
`db.ts`: overwrites `status`, `teamId` and `soldPrice` (the latter two with
`undefined` when omitted), a silent no-op when the player is absent. -/
def updatePlayerStatus (st : St) (playerId : String) (status : PlayerStatus)
    (teamId : Option String) (soldPrice : Option ℚ) : St :=
  match st.players playerId with
  | some player =>
      let player' := { player with status := status, teamId := teamId, soldPrice := soldPrice }
      { st with players := setFun st.players playerId player' }
  | none => st

/-- The body of `addActivity`: `unshift` the new activity, then `pop` the
oldest entry when the log exceeds 100. -/
def pushActivity (log : List Activity) (a : Activity) : List Activity :=
  let l := a :: log
  if l.length > 100 then l.dropLast else l

/-- `addActivity(activity)` from `db.ts`. -/
def addActivity (st : St) (a : Activity) : St :=
  { st with activities := pushActivity st.activities a }

/-- `createAuction(playerId, timerDuration)` from `db.ts`.  `now` models
the `Date.now()` reading used for the id, `startTime` and the activity
timestamp. -/
def createAuction (st : St) (playerId : String) (timerDuration : Nat)
    (now : Nat) : Option Auction × St :=
  match st.players playerId with
  | none => (none, st)
  | some player =>
      if player.status ≠ PlayerStatus.Unsold then (none, st)
      else
        let auctionId := "AUC-" ++ toString now
        let auction : Auction :=
          { id := auctionId
            playerId := playerId
            player := player
            currentBid := player.basePrice
            currentBidder := none
            bids := []
            status := AuctionStatus.live
            startTime := now
            endTime := none
            timerDuration := timerDuration }
        let st1 := { st with auctions := setFun st.auctions auctionId auction }
        let st2 := updatePlayerStatus st1 playerId PlayerStatus.Live none none
        let st3 := addActivity st2
          { id := "ACT-" ++ toString now
            type := ActivityKind.auction_start
            message := "Auction started for " ++ player.name
            timestamp := now
            teamId := none
            playerId := some playerId
            amount := none }
        (some auction, st3)

/-- `placeBid(auctionId, teamId, amount)` from `db.ts`, sequential
semantics (the bid lock is free at entry, see the file comment).  The five
domain checks run in source order; every failure path returns before any
mutation. -/
def placeBid (st : St) (auctionId teamId : String) (amount : ℚ)
    (now : Nat) : BidResult × St :=
  match st.auctions auctionId with
  | none => (⟨false, some "Auction not found", none⟩, st)
  | some auction =>
      if auction.status ≠ AuctionStatus.live then
        (⟨false, some "Auction is not active", none⟩, st)
      else
        match st.teams teamId with
        | none => (⟨false, some "Team not found", none⟩, st)
        | some team =>
            if amount ≤ auction.currentBid then
              (⟨false, some "Bid must be higher than current bid", none⟩, st)
            else if amount > team.remainingPurse then
              (⟨false, some "Insufficient purse remaining", none⟩, st)
            else
              let bid : Bid :=
                { id := "BID-" ++ toString now
                  auctionId := auctionId
                  playerId := auction.playerId
                  teamId := teamId
                  teamName := team.name
                  amount := amount
                  timestamp := now }
              let auction' :=
                { auction with
                    bids := auction.bids ++ [bid]
                    currentBid := amount
                    currentBidder := some teamId }
              let st1 := { st with auctions := setFun st.auctions auctionId auction' }
              let st2 := addActivity st1
                { id := "ACT-" ++ toString now
                  type := ActivityKind.bid
                  message := team.shortName ++ " bid ₹" ++ toString amount
                    ++ "Cr for " ++ auction.player.name
                  timestamp := now
                  teamId := some teamId
                  playerId := some auction.playerId
                  amount := some amount }
              (⟨true, none, some auction'⟩, st2)

/-- `completeAuction(auctionId)` from `db.ts`.  In the sold branch the
roster push reads the players-map entry updated just before it, because in
the source `auction.player` aliases that entry (see the file comment). -/
def completeAuction (st : St) (auctionId : String) (now : Nat) :
    Option Auction × St :=
  match st.auctions auctionId with
  | none => (none, st)
  | some auction =>
      if auction.status ≠ AuctionStatus.live then (none, st)
      else
        let auction' := { auction with status := AuctionStatus.completed, endTime := some now }
        let st1 := { st with auctions := setFun st.auctions auctionId auction' }
        match auction.currentBidder with
        | some bidder =>
            -- player sold
            let st2 := updatePlayerStatus st1 auction.playerId PlayerStatus.Sold
              (some bidder) (some auction.currentBid)
            match st2.teams bidder with
            | some team =>
                let st3 := updateTeamPurse st2 bidder (team.remainingPurse - auction.currentBid)
                let soldPlayer := (st3.players auction.playerId).getD auction.player
                let st4 := addPlayerToTeam st3 bidder soldPlayer
                let st5 := addActivity st4
                  { id := "ACT-" ++ toString now
                    type := ActivityKind.win
                    message := team.shortName ++ " won " ++ auction.player.name
                      ++ " for ₹" ++ toString auction.currentBid ++ "Cr"
                    timestamp := now
                    teamId := some bidder
                    playerId := some auction.playerId
                    amount := some auction.currentBid }
                (some auction', st5)
            | none => (some auction', st2)
        | none =>
            -- player unsold
            let st2 := updatePlayerStatus st1 auction.playerId PlayerStatus.Unsold none none
            let st3 := addActivity st2
              { id := "ACT-" ++ toString now
                type := ActivityKind.auction_end
                message := auction.player.name ++ " went unsold"
                timestamp := now
                playerId := some auction.playerId
                teamId := none
                amount := none }
            (some auction', st3)

/-- One externally triggered store operation, carrying its `Date.now()`
reading. -/
inductive Op where
  | create (playerId : String) (timerDuration : Nat) (now : Nat)
  | bid (auctionId teamId : String) (amount : ℚ) (now : Nat)
  | settle (auctionId : String) (now : Nat)

/-- The `Date.now()` reading of an operation. -/
def opTime : Op → Nat
  | Op.create _ _ n => n
  | Op.bid _ _ _ n => n
  | Op.settle _ n => n

/-- Apply one operation to the store (failed operations leave the store
unchanged, as in the source). -/
def applyOp (st : St) : Op → St
  | Op.create p d n => (createAuction st p d n).2
  | Op.bid a t amt n => (placeBid st a t amt n).2
  | Op.settle a n => (completeAuction st a n).2

/-- Run a sequence of operations from a starting store. -/
def run (st : St) (ops : List Op) : St := ops.foldl applyOp st

/-- The shape of the store right after `initializeDatabase()` seeds it:
every team has its full purse and an empty roster, every player is
`Unsold` with a positive base price (the seed draws base prices in
`[0.5, 15.5]`) and no sale data, there are no auctions and no activities. -/
def SeededInit (st : St) : Prop :=
  (∀ id t, st.teams id = some t →
      t.remainingPurse = t.totalPurse ∧ 0 ≤ t.totalPurse ∧ t.players = []) ∧
  (∀ id p, st.players id = some p →
      p.status = PlayerStatus.Unsold ∧ 0 < p.basePrice ∧ p.soldPrice = none) ∧
  (∀ id, st.auctions id = none) ∧
  st.activities = []

/-- Sum of the recorded sold prices over a roster. -/
def rosterSum (ps : List Player) : ℚ :=
  (ps.map (fun p => p.soldPrice.getD 0)).sum

theorem rosterSum_nil : rosterSum [] = 0 := rfl

theorem rosterSum_append (ps : List Player) (p : Player) :
    rosterSum (ps ++ [p]) = rosterSum ps + p.soldPrice.getD 0 := by
  simp [rosterSum]

theorem run_nil (st : St) : run st [] = st := rfl

theorem run_cons (st : St) (op : Op) (ops : List Op) :
    run st (op :: ops) = run (applyOp st op) ops := rfl

theorem addActivity_teams (st : St) (a : Activity) :
    (addActivity st a).teams = st.teams := rfl

theorem addActivity_players (st : St) (a : Activity) :
    (addActivity st a).players = st.players := rfl

theorem addActivity_auctions (st : St) (a : Activity) :
    (addActivity st a).auctions = st.auctions := rfl

theorem updateTeamPurse_players (st : St) (tid : String) (q : ℚ) :
    (updateTeamPurse st tid q).players = st.players := by
  unfold updateTeamPurse; cases st.teams tid <;> rfl

theorem updateTeamPurse_auctions (st : St) (tid : String) (q : ℚ) :
    (updateTeamPurse st tid q).auctions = st.auctions := by
  unfold updateTeamPurse; cases st.teams tid <;> rfl

theorem updateTeamPurse_activities (st : St) (tid : String) (q : ℚ) :
    (updateTeamPurse st tid q).activities = st.activities := by
  unfold updateTeamPurse; cases st.teams tid <;> rfl

theorem updateTeamPurse_teams_other (st : St) (tid : String) (q : ℚ)
    (i : String) (h : i ≠ tid) :
    (updateTeamPurse st tid q).teams i = st.teams i := by
  unfold updateTeamPurse
  cases st.teams tid with
  | none => rfl
  | some t => simp [setFun, h]

theorem updateTeamPurse_teams_same (st : St) (tid : String) (q : ℚ)
    (t : Team) (h : st.teams tid = some t) :
    (updateTeamPurse st tid q).teams tid = some { t with remainingPurse := q } := by
  unfold updateTeamPurse
  rw [h]; simp [setFun]

theorem addPlayerToTeam_players (st : St) (tid : String) (p : Player) :
    (addPlayerToTeam st tid p).players = st.players := by
  unfold addPlayerToTeam; cases st.teams tid <;> rfl

theorem addPlayerToTeam_auctions (st : St) (tid : String) (p : Player) :
    (addPlayerToTeam st tid p).auctions = st.auctions := by
  unfold addPlayerToTeam; cases st.teams tid <;> rfl

theorem addPlayerToTeam_activities (st : St) (tid : String) (p : Player) :
    (addPlayerToTeam st tid p).activities = st.activities := by
  unfold addPlayerToTeam; cases st.teams tid <;> rfl

theorem addPlayerToTeam_teams_other (st : St) (tid : String) (p : Player)
    (i : String) (h : i ≠ tid) :
    (addPlayerToTeam st tid p).teams i = st.teams i := by
  unfold addPlayerToTeam
  cases st.teams tid with
  | none => rfl
  | some t => simp [setFun, h]

theorem addPlayerToTeam_teams_same (st : St) (tid : String) (p : Player)
    (t : Team) (h : st.teams tid = some t) :
    (addPlayerToTeam st tid p).teams tid = some { t with players := t.players ++ [p] } := by
  unfold addPlayerToTeam
  rw [h]; simp [setFun]

theorem updatePlayerStatus_teams (st : St) (pid : String) (s : PlayerStatus)
    (tid : Option String) (sp : Option ℚ) :
    (updatePlayerStatus st pid s tid sp).teams = st.teams := by
  unfold updatePlayerStatus; cases st.players pid <;> rfl

theorem updatePlayerStatus_auctions (st : St) (pid : String) (s : PlayerStatus)
    (tid : Option String) (sp : Option ℚ) :
    (updatePlayerStatus st pid s tid sp).auctions = st.auctions := by
  unfold updatePlayerStatus; cases st.players pid <;> rfl

theorem updatePlayerStatus_activities (st : St) (pid : String) (s : PlayerStatus)
    (tid : Option String) (sp : Option ℚ) :
    (updatePlayerStatus st pid s tid sp).activities = st.activities := by
  unfold updatePlayerStatus; cases st.players pid <;> rfl

theorem updatePlayerStatus_players_other (st : St) (pid : String)
    (s : PlayerStatus) (tid : Option String) (sp : Option ℚ)
    (i : String) (h : i ≠ pid) :
    (updatePlayerStatus st pid s tid sp).players i = st.players i := by
  unfold updatePlayerStatus
  cases st.players pid with
  | none => rfl
  | some p => simp [setFun, h]

theorem updatePlayerStatus_players_same (st : St) (pid : String)
    (s : PlayerStatus) (tid : Option String) (sp : Option ℚ)
    (p : Player) (h : st.players pid = some p) :
    (updatePlayerStatus st pid s tid sp).players pid =
      some { p with status := s, teamId := tid, soldPrice := sp } := by
  unfold updatePlayerStatus
  rw [h]; simp [setFun]

theorem setFun_setFun {α : Type} (m : String → Option α) (k : String)
    (v w : α) : setFun (setFun m k v) k w = setFun m k w := by
  funext i
  by_cases h : i = k <;> simp [setFun, h]

theorem updateTeamPurse_none (st : St) (tid : String) (q : ℚ)
    (h : st.teams tid = none) : updateTeamPurse st tid q = st := by
  unfold updateTeamPurse; rw [h]

theorem updateTeamPurse_teams_eq (st : St) (tid : String) (q : ℚ) (t : Team)
    (h : st.teams tid = some t) :
    (updateTeamPurse st tid q).teams =
      setFun st.teams tid ({ t with remainingPurse := q }) := by
  unfold updateTeamPurse; rw [h]

theorem addPlayerToTeam_none (st : St) (tid : String) (p : Player)
    (h : st.teams tid = none) : addPlayerToTeam st tid p = st := by
  unfold addPlayerToTeam; rw [h]

theorem addPlayerToTeam_teams_eq (st : St) (tid : String) (p : Player)
    (t : Team) (h : st.teams tid = some t) :
    (addPlayerToTeam st tid p).teams =
      setFun st.teams tid ({ t with players := t.players ++ [p] }) := by
  unfold addPlayerToTeam; rw [h]

theorem updatePlayerStatus_none (st : St) (pid : String) (s : PlayerStatus)
    (tid : Option String) (sp : Option ℚ) (h : st.players pid = none) :
    updatePlayerStatus st pid s tid sp = st := by
  unfold updatePlayerStatus; rw [h]

theorem updatePlayerStatus_players_eq (st : St) (pid : String)
    (s : PlayerStatus) (tid : Option String) (sp : Option ℚ) (p : Player)
    (h : st.players pid = some p) :
    (updatePlayerStatus st pid s tid sp).players =
      setFun st.players pid ({ p with status := s, teamId := tid, soldPrice := sp }) := by
  unfold updatePlayerStatus; rw [h]

/-- The inductive state invariant preserved by every store operation:
purse conservation, positively priced sold roster entries, positive base
prices, a live players-map entry behind every auction, positive current
bids, the single-leader property, the current-bid/last-bid link, and
strictly increasing bid amounts. -/
structure StateInv (st : St) : Prop where
  purse : ∀ id tm, st.teams id = some tm →
    tm.remainingPurse = tm.totalPurse - rosterSum tm.players
  roster : ∀ id tm, st.teams id = some tm →
    ∀ p ∈ tm.players, ∃ x, p.soldPrice = some x ∧ 0 < x
  basePos : ∀ id p, st.players id = some p → 0 < p.basePrice
  aucPlayer : ∀ id a, st.auctions id = some a →
    ∃ p, st.players a.playerId = some p ∧ p.basePrice = a.player.basePrice
  bidPos : ∀ id a, st.auctions id = some a → 0 < a.currentBid
  leader : ∀ id a, st.auctions id = some a →
    a.currentBidder = a.bids.getLast?.map Bid.teamId
  curBid : ∀ id a, st.auctions id = some a →
    a.currentBid = (a.bids.getLast?.map Bid.amount).getD a.player.basePrice
  amounts : ∀ id a, st.auctions id = some a →
    a.bids.Chain' fun b1 b2 => b1.amount < b2.amount

theorem createAuction_absent (st : St) (pid : String) (d n : Nat)
    (hp : st.players pid = none) :
    createAuction st pid d n = (none, st) := by
  unfold createAuction; rw [hp]

theorem createAuction_notUnsold (st : St) (pid : String) (d n : Nat)
    (player : Player) (hp : st.players pid = some player)
    (hu : player.status ≠ PlayerStatus.Unsold) :
    createAuction st pid d n = (none, st) := by
  unfold createAuction; rw [hp]; simp [hu]

theorem createAuction_success (st : St) (pid : String) (d n : Nat)
    (player : Player) (hp : st.players pid = some player)
    (hu : player.status = PlayerStatus.Unsold) :
    createAuction st pid d n =
      (some
        { id := "AUC-" ++ toString n
          playerId := pid
          player := player
          currentBid := player.basePrice
          currentBidder := none
          bids := []
          status := AuctionStatus.live
          startTime := n
          endTime := none
          timerDuration := d },
       { teams := st.teams
         players := setFun st.players pid
           ({ player with status := PlayerStatus.Live, teamId := none, soldPrice := none })
         auctions := setFun st.auctions ("AUC-" ++ toString n)
           { id := "AUC-" ++ toString n
             playerId := pid
             player := player
             currentBid := player.basePrice
             currentBidder := none
             bids := []
             status := AuctionStatus.live
             startTime := n
             endTime := none
             timerDuration := d }
         activities := pushActivity st.activities
           { id := "ACT-" ++ toString n
             type := ActivityKind.auction_start
             message := "Auction started for " ++ player.name
             timestamp := n
             teamId := none
             playerId := some pid
             amount := none } }) := by
  unfold createAuction updatePlayerStatus addActivity
  rw [hp]
  simp [hu, hp]

theorem placeBid_noAuction (st : St) (aid tid : String) (amt : ℚ) (n : Nat)
    (ha : st.auctions aid = none) :
    placeBid st aid tid amt n = (⟨false, some "Auction not found", none⟩, st) := by
  unfold placeBid; rw [ha]

theorem placeBid_notLive (st : St) (aid tid : String) (amt : ℚ) (n : Nat)
    (a : Auction) (ha : st.auctions aid = some a)
    (hl : a.status ≠ AuctionStatus.live) :
    placeBid st aid tid amt n = (⟨false, some "Auction is not active", none⟩, st) := by
  unfold placeBid; rw [ha]; simp [hl]

theorem placeBid_noTeam (st : St) (aid tid : String) (amt : ℚ) (n : Nat)
    (a : Auction) (ha : st.auctions aid = some a)
    (hl : a.status = AuctionStatus.live) (ht : st.teams tid = none) :
    placeBid st aid tid amt n = (⟨false, some "Team not found", none⟩, st) := by
  unfold placeBid; rw [ha]; simp [hl, ht]

theorem placeBid_tooLow (st : St) (aid tid : String) (amt : ℚ) (n : Nat)
    (a : Auction) (team : Team) (ha : st.auctions aid = some a)
    (hl : a.status = AuctionStatus.live) (ht : st.teams tid = some team)
    (hle : amt ≤ a.currentBid) :
    placeBid st aid tid amt n =
      (⟨false, some "Bid must be higher than current bid", none⟩, st) := by
  unfold placeBid; rw [ha]; simp [hl, ht, hle]

theorem placeBid_insufficient (st : St) (aid tid : String) (amt : ℚ) (n : Nat)
    (a : Auction) (team : Team) (ha : st.auctions aid = some a)
    (hl : a.status = AuctionStatus.live) (ht : st.teams tid = some team)
    (hgt : a.currentBid < amt) (hpurse : team.remainingPurse < amt) :
    placeBid st aid tid amt n =
      (⟨false, some "Insufficient purse remaining", none⟩, st) := by
  unfold placeBid; rw [ha]
  simp [hl, ht, not_le.mpr hgt, hpurse]

theorem placeBid_success (st : St) (aid tid : String) (amt : ℚ) (n : Nat)
    (a : Auction) (team : Team) (ha : st.auctions aid = some a)
    (hl : a.status = AuctionStatus.live) (ht : st.teams tid = some team)
    (hgt : a.currentBid < amt) (hpurse : amt ≤ team.remainingPurse) :
    placeBid st aid tid amt n =
      (⟨true, none, some
        { a with
            bids := a.bids ++
              [{ id := "BID-" ++ toString n
                 auctionId := aid
                 playerId := a.playerId
                 teamId := tid
                 teamName := team.name
                 amount := amt
                 timestamp := n }]
            currentBid := amt
            currentBidder := some tid }⟩,
       { teams := st.teams
         players := st.players
         auctions := setFun st.auctions aid
           { a with
               bids := a.bids ++
                 [{ id := "BID-" ++ toString n
                    auctionId := aid
                    playerId := a.playerId
                    teamId := tid
                    teamName := team.name
                    amount := amt
                    timestamp := n }]
               currentBid := amt
               currentBidder := some tid }
         activities := pushActivity st.activities
           { id := "ACT-" ++ toString n
             type := ActivityKind.bid
             message := team.shortName ++ " bid ₹" ++ toString amt
               ++ "Cr for " ++ a.player.name
             timestamp := n
             teamId := some tid
             playerId := some a.playerId
             amount := some amt } }) := by
  unfold placeBid addActivity
  rw [ha]
  simp [hl, ht, not_le.mpr hgt, not_lt.mpr hpurse]

/-- The auction record after the terminal transition of `completeAuction`:
`status = completed` and `endTime` set. -/
def settled (a : Auction) (n : Nat) : Auction :=
  { a with status := AuctionStatus.completed, endTime := some n }

theorem completeAuction_absent (st : St) (aid : String) (n : Nat)
    (ha : st.auctions aid = none) :
    completeAuction st aid n = (none, st) := by
  unfold completeAuction; rw [ha]

theorem completeAuction_notLive (st : St) (aid : String) (n : Nat)
    (a : Auction) (ha : st.auctions aid = some a)
    (hl : a.status ≠ AuctionStatus.live) :
    completeAuction st aid n = (none, st) := by
  unfold completeAuction; rw [ha]; simp [hl]

theorem completeAuction_noBidder (st : St) (aid : String) (n : Nat)
    (a : Auction) (ha : st.auctions aid = some a)
    (hl : a.status = AuctionStatus.live) (hb : a.currentBidder = none) :
    completeAuction st aid n =
      (some (settled a n),
       addActivity
         (updatePlayerStatus
           { st with auctions := setFun st.auctions aid (settled a n) }
           a.playerId PlayerStatus.Unsold none none)
         { id := "ACT-" ++ toString n
           type := ActivityKind.auction_end
           message := a.player.name ++ " went unsold"
           timestamp := n
           teamId := none
           playerId := some a.playerId
           amount := none }) := by
  unfold completeAuction
  rw [ha]
  simp [hl, hb, settled]

theorem completeAuction_soldNoTeam (st : St) (aid : String) (n : Nat)
    (a : Auction) (b : String) (ha : st.auctions aid = some a)
    (hl : a.status = AuctionStatus.live) (hb : a.currentBidder = some b)
    (ht : st.teams b = none) :
    completeAuction st aid n =
      (some (settled a n),
       updatePlayerStatus
         { st with auctions := setFun st.auctions aid (settled a n) }
         a.playerId PlayerStatus.Sold (some b) (some a.currentBid)) := by
  unfold completeAuction
  rw [ha]
  have hteams :
      (updatePlayerStatus
        { st with auctions := setFun st.auctions aid (settled a n) }
        a.playerId PlayerStatus.Sold (some b) (some a.currentBid)).teams b = none := by
    rw [updatePlayerStatus_teams]; exact ht
  simp only [settled] at hteams
  simp only [hb] at hteams
  simp [hl, hb, hteams, settled]

theorem completeAuction_sold (st : St) (aid : String) (n : Nat)
    (a : Auction) (b : String) (team : Team) (ha : st.auctions aid = some a)
    (hl : a.status = AuctionStatus.live) (hb : a.currentBidder = some b)
    (ht : st.teams b = some team) :
    completeAuction st aid n =
      (some (settled a n),
       addActivity
         (addPlayerToTeam
           (updateTeamPurse
             (updatePlayerStatus
               { st with auctions := setFun st.auctions aid (settled a n) }
               a.playerId PlayerStatus.Sold (some b) (some a.currentBid))
             b (team.remainingPurse - a.currentBid))
           b
           (((updateTeamPurse
               (updatePlayerStatus
                 { st with auctions := setFun st.auctions aid (settled a n) }
                 a.playerId PlayerStatus.Sold (some b) (some a.currentBid))
               b (team.remainingPurse - a.currentBid)).players a.playerId).getD a.player))
         { id := "ACT-" ++ toString n
           type := ActivityKind.win
           message := team.shortName ++ " won " ++ a.player.name
             ++ " for ₹" ++ toString a.currentBid ++ "Cr"
           timestamp := n
           teamId := some b
           playerId := some a.playerId
           amount := some a.currentBid }) := by
  unfold completeAuction
  rw [ha]
  have hteams :
      (updatePlayerStatus
        { st with auctions := setFun st.auctions aid (settled a n) }
        a.playerId PlayerStatus.Sold (some b) (some a.currentBid)).teams b = some team := by
    rw [updatePlayerStatus_teams]; exact ht
  simp only [settled] at hteams
  simp only [hb] at hteams
  simp [hl, hb, hteams, settled]

theorem stateInv_create (st : St) (pid : String) (d n : Nat)
    (h : StateInv st) : StateInv (createAuction st pid d n).2 := by
  cases hp : st.players pid with
  | none => rw [createAuction_absent st pid d n hp]; exact h
  | some player =>
    by_cases hu : player.status = PlayerStatus.Unsold
    · rw [createAuction_success st pid d n player hp hu]
      dsimp only
      refine ⟨?_, ?_, ?_, ?_, ?_, ?_, ?_, ?_⟩
      · exact h.purse
      · exact h.roster
      · intro id q hq
        dsimp only at hq
        by_cases hid : id = pid
        · subst hid
          rw [setFun_same] at hq
          cases hq
          exact h.basePos _ player hp
        · rw [setFun_other _ _ _ _ hid] at hq
          exact h.basePos id q hq
      · intro id a ha
        dsimp only at ha
        by_cases hid : id = "AUC-" ++ toString n
        · subst hid
          rw [setFun_same] at ha
          cases ha
          exact ⟨_, setFun_same _ _ _, rfl⟩
        · rw [setFun_other _ _ _ _ hid] at ha
          obtain ⟨q, hq, hbq⟩ := h.aucPlayer id a ha
          by_cases hpp : a.playerId = pid
          · rw [hpp] at hq ⊢
            rw [hp] at hq
            cases hq
            exact ⟨_, setFun_same _ _ _, hbq⟩
          · exact ⟨q, by dsimp only; rw [setFun_other _ _ _ _ hpp]; exact hq, hbq⟩
      · intro id a ha
        dsimp only at ha
        by_cases hid : id = "AUC-" ++ toString n
        · subst hid
          rw [setFun_same] at ha
          cases ha
          exact h.basePos _ player hp
        · rw [setFun_other _ _ _ _ hid] at ha
          exact h.bidPos id a ha
      · intro id a ha
        dsimp only at ha
        by_cases hid : id = "AUC-" ++ toString n
        · subst hid
          rw [setFun_same] at ha
          cases ha
          rfl
        · rw [setFun_other _ _ _ _ hid] at ha
          exact h.leader id a ha
      · intro id a ha
        dsimp only at ha
        by_cases hid : id = "AUC-" ++ toString n
        · subst hid
          rw [setFun_same] at ha
          cases ha
          rfl
        · rw [setFun_other _ _ _ _ hid] at ha
          exact h.curBid id a ha
      · intro id a ha
        dsimp only at ha
        by_cases hid : id = "AUC-" ++ toString n
        · subst hid
          rw [setFun_same] at ha
          cases ha
          exact List.chain'_nil
        · rw [setFun_other _ _ _ _ hid] at ha
          exact h.amounts id a ha
    · rw [createAuction_notUnsold st pid d n player hp hu]
      exact h

theorem stateInv_bid (st : St) (aid tid : String) (amt : ℚ) (n : Nat)
    (h : StateInv st) : StateInv (placeBid st aid tid amt n).2 := by
  cases ha : st.auctions aid with
  | none => rw [placeBid_noAuction st aid tid amt n ha]; exact h
  | some a =>
    by_cases hl : a.status = AuctionStatus.live
    · cases ht : st.teams tid with
      | none => rw [placeBid_noTeam st aid tid amt n a ha hl ht]; exact h
      | some team =>
        by_cases hgt : a.currentBid < amt
        · by_cases hpu : amt ≤ team.remainingPurse
          · rw [placeBid_success st aid tid amt n a team ha hl ht hgt hpu]
            dsimp only
            refine ⟨h.purse, h.roster, h.basePos, ?_, ?_, ?_, ?_, ?_⟩
            · intro id x hx
              dsimp only at hx
              by_cases hid : id = aid
              · subst hid
                rw [setFun_same] at hx
                cases hx
                exact h.aucPlayer _ a ha
              · rw [setFun_other _ _ _ _ hid] at hx
                exact h.aucPlayer id x hx
            · intro id x hx
              dsimp only at hx
              by_cases hid : id = aid
              · subst hid
                rw [setFun_same] at hx
                cases hx
                exact lt_trans (h.bidPos _ a ha) hgt
              · rw [setFun_other _ _ _ _ hid] at hx
                exact h.bidPos id x hx
            · intro id x hx
              dsimp only at hx
              by_cases hid : id = aid
              · subst hid
                rw [setFun_same] at hx
                cases hx
                simp
              · rw [setFun_other _ _ _ _ hid] at hx
                exact h.leader id x hx
            · intro id x hx
              dsimp only at hx
              by_cases hid : id = aid
              · subst hid
                rw [setFun_same] at hx
                cases hx
                simp
              · rw [setFun_other _ _ _ _ hid] at hx
                exact h.curBid id x hx
            · intro id x hx
              dsimp only at hx
              by_cases hid : id = aid
              · subst hid
                rw [setFun_same] at hx
                cases hx
                refine List.chain'_append.mpr
                  ⟨h.amounts _ a ha, List.chain'_singleton _, ?_⟩
                intro x hx y hy
                simp only [List.head?_cons, Option.mem_def, Option.some.injEq] at hy
                subst hy
                have hcb := h.curBid _ a ha
                rw [hx] at hcb
                simp at hcb
                dsimp only
                rw [← hcb]
                exact hgt
              · rw [setFun_other _ _ _ _ hid] at hx
                exact h.amounts id x hx
          · rw [placeBid_insufficient st aid tid amt n a team ha hl ht hgt
              (not_le.mp hpu)]
            exact h
        · rw [placeBid_tooLow st aid tid amt n a team ha hl ht (not_lt.mp hgt)]
          exact h
    · rw [placeBid_notLive st aid tid amt n a ha hl]
      exact h

theorem settled_bids (a : Auction) (n : Nat) : (settled a n).bids = a.bids := rfl

theorem settled_currentBid (a : Auction) (n : Nat) :
    (settled a n).currentBid = a.currentBid := rfl

theorem settled_currentBidder (a : Auction) (n : Nat) :
    (settled a n).currentBidder = a.currentBidder := rfl

theorem settled_playerId (a : Auction) (n : Nat) :
    (settled a n).playerId = a.playerId := rfl

theorem settled_player (a : Auction) (n : Nat) :
    (settled a n).player = a.player := rfl

/-- The players/auctions components of `StateInv` after a settlement: the
auction at `aid` is replaced by its settled version and the player behind
it is rewritten to `pnew` (same base price); the teams-side components are
supplied by the caller. -/
theorem stateInv_settle_core (st S : St) (aid : String) (a : Auction)
    (n : Nat) (p pnew : Player) (h : StateInv st)
    (ha : st.auctions aid = some a)
    (hpl : st.players a.playerId = some p)
    (hbp : pnew.basePrice = p.basePrice)
    (hSp : S.players = setFun st.players a.playerId pnew)
    (hSa : S.auctions = setFun st.auctions aid (settled a n))
    (hTpurse : ∀ id tm, S.teams id = some tm →
      tm.remainingPurse = tm.totalPurse - rosterSum tm.players)
    (hTroster : ∀ id tm, S.teams id = some tm →
      ∀ q ∈ tm.players, ∃ x, q.soldPrice = some x ∧ 0 < x) :
    StateInv S := by
  obtain ⟨q0, hq0, hbq0⟩ := h.aucPlayer aid a ha
  rw [hpl] at hq0
  cases hq0
  refine ⟨hTpurse, hTroster, ?_, ?_, ?_, ?_, ?_, ?_⟩
  · intro id x hx
    rw [hSp] at hx
    by_cases hid : id = a.playerId
    · subst hid
      rw [setFun_same] at hx
      cases hx
      rw [hbp]
      exact h.basePos _ p hpl
    · rw [setFun_other _ _ _ _ hid] at hx
      exact h.basePos id x hx
  · intro id x hx
    rw [hSa] at hx
    by_cases hid : id = aid
    · subst hid
      rw [setFun_same] at hx
      cases hx
      refine ⟨pnew, ?_, ?_⟩
      · rw [hSp, settled_playerId, setFun_same]
      · rw [settled_player, hbp, hbq0]
    · rw [setFun_other _ _ _ _ hid] at hx
      obtain ⟨q, hq, hbq⟩ := h.aucPlayer id x hx
      by_cases hpp : x.playerId = a.playerId
      · rw [hpp] at hq ⊢
        rw [hpl] at hq
        cases hq
        exact ⟨pnew, by rw [hSp, setFun_same], by rw [hbp]; exact hbq⟩
      · exact ⟨q, by rw [hSp, setFun_other _ _ _ _ hpp]; exact hq, hbq⟩
  · intro id x hx
    rw [hSa] at hx
    by_cases hid : id = aid
    · subst hid
      rw [setFun_same] at hx
      cases hx
      rw [settled_currentBid]
      exact h.bidPos _ a ha
    · rw [setFun_other _ _ _ _ hid] at hx
      exact h.bidPos id x hx
  · intro id x hx
    rw [hSa] at hx
    by_cases hid : id = aid
    · subst hid
      rw [setFun_same] at hx
      cases hx
      rw [settled_currentBidder, settled_bids]
      exact h.leader _ a ha
    · rw [setFun_other _ _ _ _ hid] at hx
      exact h.leader id x hx
  · intro id x hx
    rw [hSa] at hx
    by_cases hid : id = aid
    · subst hid
      rw [setFun_same] at hx
      cases hx
      rw [settled_currentBid, settled_bids, settled_player]
      exact h.curBid _ a ha
    · rw [setFun_other _ _ _ _ hid] at hx
      exact h.curBid id x hx
  · intro id x hx
    rw [hSa] at hx
    by_cases hid : id = aid
    · subst hid
      rw [setFun_same] at hx
      cases hx
      rw [settled_bids]
      exact h.amounts _ a ha
    · rw [setFun_other _ _ _ _ hid] at hx
      exact h.amounts id x hx

/-- The player record written by `updatePlayerStatus` in the sold branch of
`completeAuction`. -/
def soldVersion (p : Player) (b : String) (price : ℚ) : Player :=
  { p with status := PlayerStatus.Sold, teamId := some b, soldPrice := some price }

/-- The player record written by `updatePlayerStatus` in the unsold branch
of `completeAuction`. -/
def unsoldVersion (p : Player) : Player :=
  { p with status := PlayerStatus.Unsold, teamId := none, soldPrice := none }

theorem stateInv_settle (st : St) (aid : String) (n : Nat)
    (h : StateInv st) : StateInv (completeAuction st aid n).2 := by
  cases ha : st.auctions aid with
  | none => rw [completeAuction_absent st aid n ha]; exact h
  | some a =>
    by_cases hl : a.status = AuctionStatus.live
    · obtain ⟨p, hpl, hbp⟩ := h.aucPlayer aid a ha
      cases hb : a.currentBidder with
      | none =>
        rw [completeAuction_noBidder st aid n a ha hl hb]
        set st2 := updatePlayerStatus
          { st with auctions := setFun st.auctions aid (settled a n) }
          a.playerId PlayerStatus.Unsold none none with hst2
        have hP2 : st2.players = setFun st.players a.playerId (unsoldVersion p) := by
          rw [hst2]; exact updatePlayerStatus_players_eq _ _ _ _ _ p hpl
        have hT2 : st2.teams = st.teams := by
          rw [hst2]; exact updatePlayerStatus_teams _ _ _ _ _
        have hA2 : st2.auctions = setFun st.auctions aid (settled a n) := by
          rw [hst2]; rw [updatePlayerStatus_auctions]
        refine stateInv_settle_core st _ aid a n p (unsoldVersion p) h ha hpl rfl
          ?_ ?_ ?_ ?_
        · rw [addActivity_players]; exact hP2
        · rw [addActivity_auctions]; exact hA2
        · intro id tm hm
          rw [addActivity_teams, hT2] at hm
          exact h.purse id tm hm
        · intro id tm hm
          rw [addActivity_teams, hT2] at hm
          exact h.roster id tm hm
      | some b =>
        cases ht : st.teams b with
        | none =>
          rw [completeAuction_soldNoTeam st aid n a b ha hl hb ht]
          set st2 := updatePlayerStatus
            { st with auctions := setFun st.auctions aid (settled a n) }
            a.playerId PlayerStatus.Sold (some b) (some a.currentBid) with hst2
          have hP2 : st2.players =
              setFun st.players a.playerId (soldVersion p b a.currentBid) := by
            rw [hst2]; exact updatePlayerStatus_players_eq _ _ _ _ _ p hpl
          have hT2 : st2.teams = st.teams := by
            rw [hst2]; exact updatePlayerStatus_teams _ _ _ _ _
          have hA2 : st2.auctions = setFun st.auctions aid (settled a n) := by
            rw [hst2]; rw [updatePlayerStatus_auctions]
          refine stateInv_settle_core st _ aid a n p (soldVersion p b a.currentBid)
            h ha hpl rfl hP2 hA2 ?_ ?_
          · intro id tm hm
            rw [hT2] at hm
            exact h.purse id tm hm
          · intro id tm hm
            rw [hT2] at hm
            exact h.roster id tm hm
        | some team =>
          rw [completeAuction_sold st aid n a b team ha hl hb ht]
          set st2 := updatePlayerStatus
            { st with auctions := setFun st.auctions aid (settled a n) }
            a.playerId PlayerStatus.Sold (some b) (some a.currentBid) with hst2
          set st3 := updateTeamPurse st2 b (team.remainingPurse - a.currentBid) with hst3
          set sp := (st3.players a.playerId).getD a.player with hspdef
          set st4 := addPlayerToTeam st3 b sp with hst4
          have hP2 : st2.players =
              setFun st.players a.playerId (soldVersion p b a.currentBid) := by
            rw [hst2]; exact updatePlayerStatus_players_eq _ _ _ _ _ p hpl
          have hT2 : st2.teams = st.teams := by
            rw [hst2]; exact updatePlayerStatus_teams _ _ _ _ _
          have hA2 : st2.auctions = setFun st.auctions aid (settled a n) := by
            rw [hst2]; rw [updatePlayerStatus_auctions]
          have hP3 : st3.players = st2.players := by
            rw [hst3]; exact updateTeamPurse_players _ _ _
          have hA3 : st3.auctions = st2.auctions := by
            rw [hst3]; exact updateTeamPurse_auctions _ _ _
          have hT3 : st3.teams = setFun st.teams b
              ({ team with remainingPurse := team.remainingPurse - a.currentBid }) := by
            rw [hst3]
            rw [updateTeamPurse_teams_eq st2 b _ team (by rw [hT2]; exact ht)]
            rw [hT2]
          have hsp : sp = soldVersion p b a.currentBid := by
            rw [hspdef, hP3, hP2, setFun_same]
            rfl
          have hP4 : st4.players = st3.players := by
            rw [hst4]; exact addPlayerToTeam_players _ _ _
          have hA4 : st4.auctions = st3.auctions := by
            rw [hst4]; exact addPlayerToTeam_auctions _ _ _
          have hT4 : st4.teams = setFun st.teams b
              ({ team with
                  remainingPurse := team.remainingPurse - a.currentBid,
                  players := team.players ++ [soldVersion p b a.currentBid] }) := by
            rw [hst4]
            rw [addPlayerToTeam_teams_eq st3 b sp _ (by rw [hT3]; exact setFun_same _ _ _)]
            rw [hT3, setFun_setFun, hsp]
          refine stateInv_settle_core st _ aid a n p (soldVersion p b a.currentBid)
            h ha hpl rfl ?_ ?_ ?_ ?_
          · rw [addActivity_players, hP4, hP3]; exact hP2
          · rw [addActivity_auctions, hA4, hA3]; exact hA2
          · intro id tm hm
            rw [addActivity_teams, hT4] at hm
            by_cases hid : id = b
            · rw [hid] at hm
              rw [setFun_same] at hm
              cases hm
              have hcons := h.purse b team ht
              simp [rosterSum_append, soldVersion]
              rw [hcons]
              ring
            · rw [setFun_other _ _ _ _ hid] at hm
              exact h.purse id tm hm
          · intro id tm hm
            rw [addActivity_teams, hT4] at hm
            by_cases hid : id = b
            · rw [hid] at hm
              rw [setFun_same] at hm
              cases hm
              intro q hq
              dsimp only at hq
              rw [List.mem_append] at hq
              cases hq with
              | inl hq => exact h.roster b team ht q hq
              | inr hq =>
                rw [List.mem_singleton] at hq
                subst hq
                exact ⟨a.currentBid, rfl, h.bidPos aid a ha⟩
            · rw [setFun_other _ _ _ _ hid] at hm
              exact h.roster id tm hm
    · rw [completeAuction_notLive st aid n a ha hl]
      exact h

theorem stateInv_applyOp (st : St) (op : Op) (h : StateInv st) :
    StateInv (applyOp st op) := by
  cases op with
  | create p d n => exact stateInv_create st p d n h
  | bid a t amt n => exact stateInv_bid st a t amt n h
  | settle a n => exact stateInv_settle st a n h

theorem stateInv_run (st : St) (ops : List Op) (h : StateInv st) :
    StateInv (run st ops) := by
  induction ops generalizing st with
  | nil => exact h
  | cons op ops ih =>
      rw [run_cons]
      exact ih _ (stateInv_applyOp st op h)

theorem stateInv_seeded (st : St) (h : SeededInit st) : StateInv st := by
  obtain ⟨hT, hP, hA, hAct⟩ := h
  refine ⟨?_, ?_, ?_, ?_, ?_, ?_, ?_, ?_⟩
  · intro id tm hm
    obtain ⟨h1, h2, h3⟩ := hT id tm hm
    rw [h1, h3, rosterSum_nil]
    ring
  · intro id tm hm
    obtain ⟨h1, h2, h3⟩ := hT id tm hm
    rw [h3]
    intro q hq
    exact absurd hq (List.not_mem_nil q)
  · intro id p hp
    exact (hP id p hp).2.1
  · intro id a ha
    rw [hA id] at ha
    exact absurd ha (by simp)
  · intro id a ha
    rw [hA id] at ha
    exact absurd ha (by simp)
  · intro id a ha
    rw [hA id] at ha
    exact absurd ha (by simp)
  · intro id a ha
    rw [hA id] at ha
    exact absurd ha (by simp)
  · intro id a ha
    rw [hA id] at ha
    exact absurd ha (by simp)

/-- At most one auction is live in the store. -/
def AtMostOneLive (st : St) : Prop :=
  ∀ id1 id2 a1 a2, st.auctions id1 = some a1 → st.auctions id2 = some a2 →
    a1.status = AuctionStatus.live → a2.status = AuctionStatus.live → id1 = id2

theorem settled_status (a : Auction) (n : Nat) :
    (settled a n).status = AuctionStatus.completed := rfl

/-- The purse lower-bound invariant: every purse is nonnegative and the
purse of the leading team of any live auction covers its current bid. -/
structure SoloInv (st : St) : Prop where
  nonneg : ∀ id tm, st.teams id = some tm → 0 ≤ tm.remainingPurse
  covered : ∀ id x b tm, st.auctions id = some x →
    x.status = AuctionStatus.live → x.currentBidder = some b →
    st.teams b = some tm → x.currentBid ≤ tm.remainingPurse

theorem soloInv_create (st : St) (pid : String) (d n : Nat) (h : SoloInv st) :
    SoloInv (createAuction st pid d n).2 := by
  cases hp : st.players pid with
  | none => rw [createAuction_absent st pid d n hp]; exact h
  | some player =>
    by_cases hu : player.status = PlayerStatus.Unsold
    · rw [createAuction_success st pid d n player hp hu]
      constructor
      · intro id tm hm
        dsimp only at hm
        exact h.nonneg id tm hm
      · intro id x bb tm hx hlive hbb htm
        dsimp only at hx htm
        by_cases hid : id = "AUC-" ++ toString n
        · rw [hid, setFun_same] at hx
          cases hx
          simp at hbb
        · rw [setFun_other _ _ _ _ hid] at hx
          exact h.covered id x bb tm hx hlive hbb htm
    · rw [createAuction_notUnsold st pid d n player hp hu]
      exact h

theorem soloInv_bid (st : St) (aid tid : String) (amt : ℚ) (n : Nat)
    (h : SoloInv st) : SoloInv (placeBid st aid tid amt n).2 := by
  cases ha : st.auctions aid with
  | none => rw [placeBid_noAuction st aid tid amt n ha]; exact h
  | some a =>
    by_cases hl : a.status = AuctionStatus.live
    · cases ht : st.teams tid with
      | none => rw [placeBid_noTeam st aid tid amt n a ha hl ht]; exact h
      | some team =>
        by_cases hgt : a.currentBid < amt
        · by_cases hpu : amt ≤ team.remainingPurse
          · rw [placeBid_success st aid tid amt n a team ha hl ht hgt hpu]
            constructor
            · intro id tm hm
              dsimp only at hm
              exact h.nonneg id tm hm
            · intro id x bb tm hx hlive hbb htm
              dsimp only at hx htm
              by_cases hid : id = aid
              · rw [hid, setFun_same] at hx
                cases hx
                dsimp only at hbb ⊢
                rw [Option.some.injEq] at hbb
                subst hbb
                rw [ht] at htm
                cases htm
                exact hpu
              · rw [setFun_other _ _ _ _ hid] at hx
                exact h.covered id x bb tm hx hlive hbb htm
          · rw [placeBid_insufficient st aid tid amt n a team ha hl ht hgt
              (not_le.mp hpu)]
            exact h
        · rw [placeBid_tooLow st aid tid amt n a team ha hl ht (not_lt.mp hgt)]
          exact h
    · rw [placeBid_notLive st aid tid amt n a ha hl]
      exact h

theorem soloInv_settle (st : St) (aid : String) (n : Nat)
    (h : SoloInv st) (hone : AtMostOneLive st) :
    SoloInv (completeAuction st aid n).2 := by
  cases ha : st.auctions aid with
  | none => rw [completeAuction_absent st aid n ha]; exact h
  | some a =>
    by_cases hl : a.status = AuctionStatus.live
    · cases hb : a.currentBidder with
      | none =>
        rw [completeAuction_noBidder st aid n a ha hl hb]
        set st2 := updatePlayerStatus
          { st with auctions := setFun st.auctions aid (settled a n) }
          a.playerId PlayerStatus.Unsold none none with hst2
        have hT2 : st2.teams = st.teams := by
          rw [hst2]; exact updatePlayerStatus_teams _ _ _ _ _
        have hA2 : st2.auctions = setFun st.auctions aid (settled a n) := by
          rw [hst2]; rw [updatePlayerStatus_auctions]
        constructor
        · intro id tm hm
          rw [addActivity_teams, hT2] at hm
          exact h.nonneg id tm hm
        · intro id x bb tm hx hlive hbb htm
          rw [addActivity_auctions, hA2] at hx
          rw [addActivity_teams, hT2] at htm
          by_cases hid : id = aid
          · rw [hid, setFun_same] at hx
            cases hx
            rw [settled_status] at hlive
            exact absurd hlive (by simp)
          · rw [setFun_other _ _ _ _ hid] at hx
            exact h.covered id x bb tm hx hlive hbb htm
      | some b =>
        cases ht : st.teams b with
        | none =>
          rw [completeAuction_soldNoTeam st aid n a b ha hl hb ht]
          set st2 := updatePlayerStatus
            { st with auctions := setFun st.auctions aid (settled a n) }
            a.playerId PlayerStatus.Sold (some b) (some a.currentBid) with hst2
          have hT2 : st2.teams = st.teams := by
            rw [hst2]; exact updatePlayerStatus_teams _ _ _ _ _
          have hA2 : st2.auctions = setFun st.auctions aid (settled a n) := by
            rw [hst2]; rw [updatePlayerStatus_auctions]
          constructor
          · intro id tm hm
            rw [hT2] at hm
            exact h.nonneg id tm hm
          · intro id x bb tm hx hlive hbb htm
            rw [hA2] at hx
            rw [hT2] at htm
            by_cases hid : id = aid
            · rw [hid, setFun_same] at hx
              cases hx
              rw [settled_status] at hlive
              exact absurd hlive (by simp)
            · rw [setFun_other _ _ _ _ hid] at hx
              exact h.covered id x bb tm hx hlive hbb htm
        | some team =>
          rw [completeAuction_sold st aid n a b team ha hl hb ht]
          set st2 := updatePlayerStatus
            { st with auctions := setFun st.auctions aid (settled a n) }
            a.playerId PlayerStatus.Sold (some b) (some a.currentBid) with hst2
          set st3 := updateTeamPurse st2 b (team.remainingPurse - a.currentBid) with hst3
          set sp := (st3.players a.playerId).getD a.player with hspdef
          set st4 := addPlayerToTeam st3 b sp with hst4
          have hT2 : st2.teams = st.teams := by
            rw [hst2]; exact updatePlayerStatus_teams _ _ _ _ _
          have hA2 : st2.auctions = setFun st.auctions aid (settled a n) := by
            rw [hst2]; rw [updatePlayerStatus_auctions]
          have hA3 : st3.auctions = st2.auctions := by
            rw [hst3]; exact updateTeamPurse_auctions _ _ _
          have hT3 : st3.teams = setFun st.teams b
              ({ team with remainingPurse := team.remainingPurse - a.currentBid }) := by
            rw [hst3]
            rw [updateTeamPurse_teams_eq st2 b _ team (by rw [hT2]; exact ht)]
            rw [hT2]
          have hA4 : st4.auctions = st3.auctions := by
            rw [hst4]; exact addPlayerToTeam_auctions _ _ _
          have hT4 : st4.teams = setFun st.teams b
              ({ { team with remainingPurse := team.remainingPurse - a.currentBid } with
                  players := team.players ++ [sp] }) := by
            rw [hst4]
            rw [addPlayerToTeam_teams_eq st3 b sp _ (by rw [hT3]; exact setFun_same _ _ _)]
            rw [hT3, setFun_setFun]
          constructor
          · intro id tm hm
            rw [addActivity_teams, hT4] at hm
            by_cases hid : id = b
            · rw [hid, setFun_same] at hm
              cases hm
              dsimp only
              rw [sub_nonneg]
              exact h.covered aid a b team ha hl hb ht
            · rw [setFun_other _ _ _ _ hid] at hm
              exact h.nonneg id tm hm
          · intro id x bb tm hx hlive hbb htm
            rw [addActivity_auctions, hA4, hA3, hA2] at hx
            by_cases hid : id = aid
            · rw [hid, setFun_same] at hx
              cases hx
              rw [settled_status] at hlive
              exact absurd hlive (by simp)
            · rw [setFun_other _ _ _ _ hid] at hx
              exact absurd (hone id aid x a hx ha hlive hl) hid
    · rw [completeAuction_notLive st aid n a ha hl]
      exact h

theorem soloInv_applyOp (st : St) (op : Op) (h : SoloInv st)
    (hone : AtMostOneLive st) : SoloInv (applyOp st op) := by
  cases op with
  | create p d n => exact soloInv_create st p d n h
  | bid a t amt n => exact soloInv_bid st a t amt n h
  | settle a n => exact soloInv_settle st a n h hone

theorem soloInv_run (st : St) (ops : List Op) (h : SoloInv st)
    (hone : ∀ k, AtMostOneLive (run st (List.take k ops))) :
    SoloInv (run st ops) := by
  induction ops generalizing st with
  | nil => exact h
  | cons op ops ih =>
      rw [run_cons]
      refine ih _ (soloInv_applyOp st op h ?_) ?_
      · have h0 := hone 0
        simpa [run] using h0
      · intro k
        have hk := hone (k + 1)
        simpa [run_cons] using hk

theorem completeAuction_auctions (st : St) (aid : String) (n : Nat)
    (a : Auction) (ha : st.auctions aid = some a)
    (hl : a.status = AuctionStatus.live) :
    (completeAuction st aid n).2.auctions = setFun st.auctions aid (settled a n) := by
  cases hb : a.currentBidder with
  | none =>
      rw [completeAuction_noBidder st aid n a ha hl hb]
      rw [addActivity_auctions, updatePlayerStatus_auctions]
  | some b =>
    cases ht : st.teams b with
    | none =>
        rw [completeAuction_soldNoTeam st aid n a b ha hl hb ht]
        rw [updatePlayerStatus_auctions]
    | some team =>
        rw [completeAuction_sold st aid n a b team ha hl hb ht]
        rw [addActivity_auctions, addPlayerToTeam_auctions, updateTeamPurse_auctions,
          updatePlayerStatus_auctions]

/-- All bid timestamps in the store are chronological and bounded by `t`. -/
def TimeInv (st : St) (t : Nat) : Prop :=
  ∀ id a, st.auctions id = some a →
    (a.bids.Chain' fun b1 b2 => b1.timestamp ≤ b2.timestamp) ∧
    ∀ b ∈ a.bids, b.timestamp ≤ t

theorem timeInv_applyOp (st : St) (op : Op) (t : Nat) (h : TimeInv st t)
    (hle : t ≤ opTime op) : TimeInv (applyOp st op) (opTime op) := by
  cases op with
  | create pid d n =>
    cases hp : st.players pid with
    | none =>
        rw [show applyOp st (Op.create pid d n) = (createAuction st pid d n).2 from rfl]
        rw [createAuction_absent st pid d n hp]
        intro id a ha
        obtain ⟨h1, h2⟩ := h id a ha
        exact ⟨h1, fun b hb => le_trans (h2 b hb) hle⟩
    | some player =>
      by_cases hu : player.status = PlayerStatus.Unsold
      · rw [show applyOp st (Op.create pid d n) = (createAuction st pid d n).2 from rfl]
        rw [createAuction_success st pid d n player hp hu]
        intro id a ha
        dsimp only at ha
        by_cases hid : id = "AUC-" ++ toString n
        · rw [hid, setFun_same] at ha
          cases ha
          exact ⟨List.chain'_nil, by intro b hb; exact absurd hb (List.not_mem_nil b)⟩
        · rw [setFun_other _ _ _ _ hid] at ha
          obtain ⟨h1, h2⟩ := h id a ha
          exact ⟨h1, fun b hb => le_trans (h2 b hb) hle⟩
      · rw [show applyOp st (Op.create pid d n) = (createAuction st pid d n).2 from rfl]
        rw [createAuction_notUnsold st pid d n player hp hu]
        intro id a ha
        obtain ⟨h1, h2⟩ := h id a ha
        exact ⟨h1, fun b hb => le_trans (h2 b hb) hle⟩
  | bid aid tid amt n =>
    rw [show applyOp st (Op.bid aid tid amt n) = (placeBid st aid tid amt n).2 from rfl]
    cases ha : st.auctions aid with
    | none =>
        rw [placeBid_noAuction st aid tid amt n ha]
        intro id a hia
        obtain ⟨h1, h2⟩ := h id a hia
        exact ⟨h1, fun b hb => le_trans (h2 b hb) hle⟩
    | some a =>
      by_cases hl : a.status = AuctionStatus.live
      · cases ht : st.teams tid with
        | none =>
            rw [placeBid_noTeam st aid tid amt n a ha hl ht]
            intro id x hix
            obtain ⟨h1, h2⟩ := h id x hix
            exact ⟨h1, fun b hb => le_trans (h2 b hb) hle⟩
        | some team =>
          by_cases hgt : a.currentBid < amt
          · by_cases hpu : amt ≤ team.remainingPurse
            · rw [placeBid_success st aid tid amt n a team ha hl ht hgt hpu]
              intro id x hix
              dsimp only at hix
              by_cases hid : id = aid
              · rw [hid, setFun_same] at hix
                cases hix
                obtain ⟨h1, h2⟩ := h aid a ha
                dsimp only
                constructor
                · refine List.chain'_append.mpr ⟨h1, List.chain'_singleton _, ?_⟩
                  intro x hx y hy
                  simp only [List.head?_cons, Option.mem_def, Option.some.injEq] at hy
                  subst hy
                  have hxmem : x ∈ a.bids := by
                    obtain ⟨hne, hxe⟩ := List.mem_getLast?_eq_getLast hx
                    rw [hxe]
                    exact List.getLast_mem hne
                  exact le_trans (le_trans (h2 x hxmem) hle) (le_refl n)
                · intro b hb
                  rw [List.mem_append] at hb
                  cases hb with
                  | inl hb => exact le_trans (h2 b hb) hle
                  | inr hb =>
                      rw [List.mem_singleton] at hb
                      subst hb
                      exact le_refl n
              · rw [setFun_other _ _ _ _ hid] at hix
                obtain ⟨h1, h2⟩ := h id x hix
                exact ⟨h1, fun b hb => le_trans (h2 b hb) hle⟩
            · rw [placeBid_insufficient st aid tid amt n a team ha hl ht hgt
                (not_le.mp hpu)]
              intro id x hix
              obtain ⟨h1, h2⟩ := h id x hix
              exact ⟨h1, fun b hb => le_trans (h2 b hb) hle⟩
          · rw [placeBid_tooLow st aid tid amt n a team ha hl ht (not_lt.mp hgt)]
            intro id x hix
            obtain ⟨h1, h2⟩ := h id x hix
            exact ⟨h1, fun b hb => le_trans (h2 b hb) hle⟩
      · rw [placeBid_notLive st aid tid amt n a ha hl]
        intro id x hix
        obtain ⟨h1, h2⟩ := h id x hix
        exact ⟨h1, fun b hb => le_trans (h2 b hb) hle⟩
  | settle aid n =>
    rw [show applyOp st (Op.settle aid n) = (completeAuction st aid n).2 from rfl]
    cases ha : st.auctions aid with
    | none =>
        rw [completeAuction_absent st aid n ha]
        intro id x hix
        obtain ⟨h1, h2⟩ := h id x hix
        exact ⟨h1, fun b hb => le_trans (h2 b hb) hle⟩
    | some a =>
      by_cases hl : a.status = AuctionStatus.live
      · have hA := completeAuction_auctions st aid n a ha hl
        intro id x hix
        rw [hA] at hix
        by_cases hid : id = aid
        · rw [hid, setFun_same] at hix
          cases hix
          obtain ⟨h1, h2⟩ := h aid a ha
          rw [settled_bids]
          exact ⟨h1, fun b hb => le_trans (h2 b hb) hle⟩
        · rw [setFun_other _ _ _ _ hid] at hix
          obtain ⟨h1, h2⟩ := h id x hix
          exact ⟨h1, fun b hb => le_trans (h2 b hb) hle⟩
      · rw [completeAuction_notLive st aid n a ha hl]
        intro id x hix
        obtain ⟨h1, h2⟩ := h id x hix
        exact ⟨h1, fun b hb => le_trans (h2 b hb) hle⟩

theorem timeInv_run (st : St) (ops : List Op) (t : Nat) (h : TimeInv st t)
    (hc : List.Chain (fun x y => x ≤ y) t (ops.map opTime)) :
    ∃ u, TimeInv (run st ops) u := by
  induction ops generalizing st t with
  | nil => exact ⟨t, h⟩
  | cons op ops ih =>
      rw [run_cons]
      rw [List.map_cons] at hc
      cases hc with
      | cons hle hc2 => exact ih _ _ (timeInv_applyOp st op t h hle) hc2

theorem soloInv_seeded (st : St) (h : SeededInit st) : SoloInv st := by
  obtain ⟨hT, hP, hA, hAct⟩ := h
  constructor
  · intro id tm hm
    obtain ⟨h1, h2, h3⟩ := hT id tm hm
    rw [h1]
    exact h2
  · intro id x bb tm hx hlive hbb htm
    rw [hA id] at hx
    exact absurd hx (by simp)

theorem timeInv_seeded (st : St) (h : SeededInit st) (t : Nat) : TimeInv st t := by
  obtain ⟨hT, hP, hA, hAct⟩ := h
  intro id a ha
  rw [hA id] at ha
  exact absurd ha (by simp)

/-- A seed team as built by the seeding routine of `db.ts`: full purse of
100, roster capacity 25, empty roster. -/
def mkTeam (id name shortName : String) : Team :=
  { id := id
    name := name
    shortName := shortName
    logo := "https://api.dicebear.com/7.x/identicon/svg?seed=" ++ id
    totalPurse := 100
    remainingPurse := 100
    maxPlayers := 25
    players := [] }

/-- A seed player as built by the seeding routine of `db.ts`: status
`Unsold`, no sale data. -/
def mkSeedPlayer (id name : String) (role : PlayerRole) (basePrice : ℚ)
    (nationality : String) (age : Nat) : Player :=
  { id := id
    name := name
    role := role
    basePrice := basePrice
    status := PlayerStatus.Unsold
    soldPrice := none
    teamId := none
    nationality := nationality
    age := age
    avatar := "https://api.dicebear.com/7.x/avataaars/svg?seed=" ++ name }

/-- An instance of the seeded store: the ten teams of `db.ts` and a
representative sample of the 100 seeded players (the seed draws each base
price randomly from [0.5, 15.5] and ages from [20, 34]; this instance
fixes admissible values). -/
def seedState : St :=
  { teams := fun i =>
      if i = "MI" then some (mkTeam "MI" "Mumbai Indians" "MI")
      else if i = "CSK" then some (mkTeam "CSK" "Chennai Super Kings" "CSK")
      else if i = "RCB" then some (mkTeam "RCB" "Royal Challengers Bangalore" "RCB")
      else if i = "KKR" then some (mkTeam "KKR" "Kolkata Knight Riders" "KKR")
      else if i = "DC" then some (mkTeam "DC" "Delhi Capitals" "DC")
      else if i = "SRH" then some (mkTeam "SRH" "Sunrisers Hyderabad" "SRH")
      else if i = "PBKS" then some (mkTeam "PBKS" "Punjab Kings" "PBKS")
      else if i = "RR" then some (mkTeam "RR" "Rajasthan Royals" "RR")
      else if i = "GT" then some (mkTeam "GT" "Gujarat Titans" "GT")
      else if i = "LSG" then some (mkTeam "LSG" "Lucknow Super Giants" "LSG")
      else none
    players := fun i =>
      if i = "P001" then
        some (mkSeedPlayer "P001" "Virat Kohli" PlayerRole.Batsman 5 "India" 30)
      else if i = "P002" then
        some (mkSeedPlayer "P002" "Rohit Sharma" PlayerRole.Bowler 5 "Australia" 28)
      else if i = "P003" then
        some (mkSeedPlayer "P003" "MS Dhoni" PlayerRole.AllRounder 5 "England" 32)
      else none
    auctions := fun _ => none
    activities := [] }

theorem seedState_init : SeededInit seedState := by
  refine ⟨?_, ?_, fun id => rfl, rfl⟩
  · intro id t hm
    simp only [seedState] at hm
    split_ifs at hm <;> injection hm with hm2 <;> subst hm2 <;>
      exact ⟨rfl, by norm_num [mkTeam], rfl⟩
  · intro id p hm
    simp only [seedState] at hm
    split_ifs at hm <;> injection hm with hm2 <;> subst hm2 <;>
      exact ⟨rfl, by norm_num [mkSeedPlayer], rfl⟩

theorem completeAuction_sold_fst (st : St) (aid : String) (n : Nat)
    (a : Auction) (b : String) (team : Team)
    (ha : st.auctions aid = some a) (hl : a.status = AuctionStatus.live)
    (hb : a.currentBidder = some b) (ht : st.teams b = some team) :
    (completeAuction st aid n).1 = some (settled a n) := by
  rw [completeAuction_sold st aid n a b team ha hl hb ht]

theorem completeAuction_sold_players (st : St) (aid : String) (n : Nat)
    (a : Auction) (b : String) (team : Team) (p : Player)
    (ha : st.auctions aid = some a) (hl : a.status = AuctionStatus.live)
    (hb : a.currentBidder = some b) (ht : st.teams b = some team)
    (hpl : st.players a.playerId = some p) :
    (completeAuction st aid n).2.players =
      setFun st.players a.playerId (soldVersion p b a.currentBid) := by
  rw [completeAuction_sold st aid n a b team ha hl hb ht]
  dsimp only
  rw [addActivity_players, addPlayerToTeam_players, updateTeamPurse_players]
  exact updatePlayerStatus_players_eq _ _ _ _ _ p hpl

theorem completeAuction_sold_teams (st : St) (aid : String) (n : Nat)
    (a : Auction) (b : String) (team : Team) (p : Player)
    (ha : st.auctions aid = some a) (hl : a.status = AuctionStatus.live)
    (hb : a.currentBidder = some b) (ht : st.teams b = some team)
    (hpl : st.players a.playerId = some p) :
    (completeAuction st aid n).2.teams =
      setFun st.teams b
        ({ team with
            remainingPurse := team.remainingPurse - a.currentBid,
            players := team.players ++ [soldVersion p b a.currentBid] }) := by
  rw [completeAuction_sold st aid n a b team ha hl hb ht]
  dsimp only
  set st2 := updatePlayerStatus
    { st with auctions := setFun st.auctions aid (settled a n) }
    a.playerId PlayerStatus.Sold (some b) (some a.currentBid) with hst2
  set st3 := updateTeamPurse st2 b (team.remainingPurse - a.currentBid) with hst3
  set sp := (st3.players a.playerId).getD a.player with hspdef
  set st4 := addPlayerToTeam st3 b sp with hst4
  have hP2 : st2.players =
      setFun st.players a.playerId (soldVersion p b a.currentBid) := by
    rw [hst2]; exact updatePlayerStatus_players_eq _ _ _ _ _ p hpl
  have hT2 : st2.teams = st.teams := by
    rw [hst2]; exact updatePlayerStatus_teams _ _ _ _ _
  have hP3 : st3.players = st2.players := by
    rw [hst3]; exact updateTeamPurse_players _ _ _
  have hT3 : st3.teams = setFun st.teams b
      ({ team with remainingPurse := team.remainingPurse - a.currentBid }) := by
    rw [hst3]
    rw [updateTeamPurse_teams_eq st2 b _ team (by rw [hT2]; exact ht)]
    rw [hT2]
  have hsp : sp = soldVersion p b a.currentBid := by
    rw [hspdef, hP3, hP2, setFun_same]
    rfl
  have hT4 : st4.teams = setFun st.teams b
      ({ team with
          remainingPurse := team.remainingPurse - a.currentBid,
          players := team.players ++ [soldVersion p b a.currentBid] }) := by
    rw [hst4]
    rw [addPlayerToTeam_teams_eq st3 b sp _ (by rw [hT3]; exact setFun_same _ _ _)]
    rw [hT3, setFun_setFun, hsp]
  rw [addActivity_teams]
  exact hT4

theorem completeAuction_sold_activities (st : St) (aid : String) (n : Nat)
    (a : Auction) (b : String) (team : Team)
    (ha : st.auctions aid = some a) (hl : a.status = AuctionStatus.live)
    (hb : a.currentBidder = some b) (ht : st.teams b = some team) :
    (completeAuction st aid n).2.activities =
      pushActivity st.activities
        { id := "ACT-" ++ toString n
          type := ActivityKind.win
          message := team.shortName ++ " won " ++ a.player.name
            ++ " for ₹" ++ toString a.currentBid ++ "Cr"
          timestamp := n
          teamId := some b
          playerId := some a.playerId
          amount := some a.currentBid } := by
  rw [completeAuction_sold st aid n a b team ha hl hb ht]
  dsimp only
  rw [show ∀ S : St, (addActivity S _).activities = pushActivity S.activities _
    from fun S => rfl]
  rw [addPlayerToTeam_activities, updateTeamPurse_activities,
    updatePlayerStatus_activities]

theorem completeAuction_noBidder_fst (st : St) (aid : String) (n : Nat)
    (a : Auction) (ha : st.auctions aid = some a)
    (hl : a.status = AuctionStatus.live) (hb : a.currentBidder = none) :
    (completeAuction st aid n).1 = some (settled a n) := by
  rw [completeAuction_noBidder st aid n a ha hl hb]

theorem completeAuction_noBidder_players (st : St) (aid : String) (n : Nat)
    (a : Auction) (p : Player) (ha : st.auctions aid = some a)
    (hl : a.status = AuctionStatus.live) (hb : a.currentBidder = none)
    (hpl : st.players a.playerId = some p) :
    (completeAuction st aid n).2.players =
      setFun st.players a.playerId (unsoldVersion p) := by
  rw [completeAuction_noBidder st aid n a ha hl hb]
  dsimp only
  rw [addActivity_players]
  exact updatePlayerStatus_players_eq _ _ _ _ _ p hpl

theorem completeAuction_noBidder_teams (st : St) (aid : String) (n : Nat)
    (a : Auction) (ha : st.auctions aid = some a)
    (hl : a.status = AuctionStatus.live) (hb : a.currentBidder = none) :
    (completeAuction st aid n).2.teams = st.teams := by
  rw [completeAuction_noBidder st aid n a ha hl hb]
  dsimp only
  rw [addActivity_teams]
  exact updatePlayerStatus_teams _ _ _ _ _

theorem completeAuction_noBidder_activities (st : St) (aid : String) (n : Nat)
    (a : Auction) (ha : st.auctions aid = some a)
    (hl : a.status = AuctionStatus.live) (hb : a.currentBidder = none) :
    (completeAuction st aid n).2.activities =
      pushActivity st.activities
        { id := "ACT-" ++ toString n
          type := ActivityKind.auction_end
          message := a.player.name ++ " went unsold"
          timestamp := n
          teamId := none
          playerId := some a.playerId
          amount := none } := by
  rw [completeAuction_noBidder st aid n a ha hl hb]
  dsimp only
  rw [show ∀ S : St, (addActivity S _).activities = pushActivity S.activities _
    from fun S => rfl]
  rw [updatePlayerStatus_activities]

/-- Seed player `P001` of the counterexample trace. -/
def seedP1 : Player := mkSeedPlayer "P001" "Virat Kohli" PlayerRole.Batsman 5 "India" 30

/-- Seed player `P002` of the counterexample trace. -/
def seedP2 : Player := mkSeedPlayer "P002" "Rohit Sharma" PlayerRole.Bowler 5 "Australia" 28

/-- The seeded Mumbai Indians team. -/
def teamMI : Team := mkTeam "MI" "Mumbai Indians" "MI"

/-- `P001` after auction creation marks it `Live`. -/
def liveP1 : Player := { seedP1 with status := PlayerStatus.Live, teamId := none, soldPrice := none }

/-- `P002` after auction creation marks it `Live`. -/
def liveP2 : Player := { seedP2 with status := PlayerStatus.Live, teamId := none, soldPrice := none }

/-- The auction created for `P001` at time 1. -/
def A1 : Auction :=
  { id := "AUC-1"
    playerId := "P001"
    player := seedP1
    currentBid := 5
    currentBidder := none
    bids := []
    status := AuctionStatus.live
    startTime := 1
    endTime := none
    timerDuration := 60 }

/-- The auction created for `P002` at time 2. -/
def A2 : Auction :=
  { id := "AUC-2"
    playerId := "P002"
    player := seedP2
    currentBid := 5
    currentBidder := none
    bids := []
    status := AuctionStatus.live
    startTime := 2
    endTime := none
    timerDuration := 60 }

/-- The bid of 60 by MI on `AUC-1` at time 3. -/
def bid3 : Bid :=
  { id := "BID-3"
    auctionId := "AUC-1"
    playerId := "P001"
    teamId := "MI"
    teamName := "Mumbai Indians"
    amount := 60
    timestamp := 3 }

/-- The bid of 60 by MI on `AUC-2` at time 4. -/
def bid4 : Bid :=
  { id := "BID-4"
    auctionId := "AUC-2"
    playerId := "P002"
    teamId := "MI"
    teamName := "Mumbai Indians"
    amount := 60
    timestamp := 4 }

/-- `AUC-1` after MI's bid of 60. -/
def A1b : Auction := { A1 with bids := [bid3], currentBid := 60, currentBidder := some "MI" }

/-- `AUC-2` after MI's bid of 60. -/
def A2b : Auction := { A2 with bids := [bid4], currentBid := 60, currentBidder := some "MI" }

/-- The double-exposure trace: MI leads two concurrently live auctions with
a bid of 60 each against a purse of 100, and both settle. -/
def cexOps : List Op :=
  [Op.create "P001" 60 1, Op.create "P002" 60 2,
   Op.bid "AUC-1" "MI" 60 3, Op.bid "AUC-2" "MI" 60 4,
   Op.settle "AUC-1" 5, Op.settle "AUC-2" 6]

def cexSt1 : St := (createAuction seedState "P001" 60 1).2

def cexSt2 : St := (createAuction cexSt1 "P002" 60 2).2

def cexSt3 : St := (placeBid cexSt2 "AUC-1" "MI" 60 3).2

def cexSt4 : St := (placeBid cexSt3 "AUC-2" "MI" 60 4).2

def cexSt5 : St := (completeAuction cexSt4 "AUC-1" 5).2

def cexSt6 : St := (completeAuction cexSt5 "AUC-2" 6).2

theorem run_cexOps : run seedState cexOps = cexSt6 := rfl

theorem cex2_auc1 : cexSt2.auctions "AUC-1" = some A1 := rfl

theorem cex2_auc2 : cexSt2.auctions "AUC-2" = some A2 := rfl

theorem cex2_mi : cexSt2.teams "MI" = some teamMI := rfl

theorem cex2_p1 : cexSt2.players "P001" = some liveP1 := rfl

theorem cex2_p2 : cexSt2.players "P002" = some liveP2 := rfl

theorem cex_hgt1 : A1.currentBid < 60 := by norm_num [A1]

theorem cex_hgt2 : A2.currentBid < 60 := by norm_num [A2]

theorem cex_hpu : (60 : ℚ) ≤ teamMI.remainingPurse := by norm_num [teamMI, mkTeam]

theorem cex3_auc1 : cexSt3.auctions "AUC-1" = some A1b := by
  have h3 := placeBid_success cexSt2 "AUC-1" "MI" 60 3 A1 teamMI cex2_auc1 rfl
    cex2_mi cex_hgt1 cex_hpu
  show (placeBid cexSt2 "AUC-1" "MI" 60 3).2.auctions "AUC-1" = some A1b
  rw [h3]
  rfl

theorem cex3_auc2 : cexSt3.auctions "AUC-2" = some A2 := by
  have h3 := placeBid_success cexSt2 "AUC-1" "MI" 60 3 A1 teamMI cex2_auc1 rfl
    cex2_mi cex_hgt1 cex_hpu
  show (placeBid cexSt2 "AUC-1" "MI" 60 3).2.auctions "AUC-2" = some A2
  rw [h3]
  dsimp only
  rw [setFun_other _ _ _ _ (by decide)]
  exact cex2_auc2

theorem cex3_mi : cexSt3.teams "MI" = some teamMI := by
  have h3 := placeBid_success cexSt2 "AUC-1" "MI" 60 3 A1 teamMI cex2_auc1 rfl
    cex2_mi cex_hgt1 cex_hpu
  show (placeBid cexSt2 "AUC-1" "MI" 60 3).2.teams "MI" = some teamMI
  rw [h3]
  exact cex2_mi

theorem cex3_p1 : cexSt3.players "P001" = some liveP1 := by
  have h3 := placeBid_success cexSt2 "AUC-1" "MI" 60 3 A1 teamMI cex2_auc1 rfl
    cex2_mi cex_hgt1 cex_hpu
  show (placeBid cexSt2 "AUC-1" "MI" 60 3).2.players "P001" = some liveP1
  rw [h3]
  exact cex2_p1

theorem cex3_p2 : cexSt3.players "P002" = some liveP2 := by
  have h3 := placeBid_success cexSt2 "AUC-1" "MI" 60 3 A1 teamMI cex2_auc1 rfl
    cex2_mi cex_hgt1 cex_hpu
  show (placeBid cexSt2 "AUC-1" "MI" 60 3).2.players "P002" = some liveP2
  rw [h3]
  exact cex2_p2

theorem cex4_auc1 : cexSt4.auctions "AUC-1" = some A1b := by
  have h4 := placeBid_success cexSt3 "AUC-2" "MI" 60 4 A2 teamMI cex3_auc2 rfl
    cex3_mi cex_hgt2 cex_hpu
  show (placeBid cexSt3 "AUC-2" "MI" 60 4).2.auctions "AUC-1" = some A1b
  rw [h4]
  dsimp only
  rw [setFun_other _ _ _ _ (by decide)]
  exact cex3_auc1

theorem cex4_auc2 : cexSt4.auctions "AUC-2" = some A2b := by
  have h4 := placeBid_success cexSt3 "AUC-2" "MI" 60 4 A2 teamMI cex3_auc2 rfl
    cex3_mi cex_hgt2 cex_hpu
  show (placeBid cexSt3 "AUC-2" "MI" 60 4).2.auctions "AUC-2" = some A2b
  rw [h4]
  rfl

theorem cex4_mi : cexSt4.teams "MI" = some teamMI := by
  have h4 := placeBid_success cexSt3 "AUC-2" "MI" 60 4 A2 teamMI cex3_auc2 rfl
    cex3_mi cex_hgt2 cex_hpu
  show (placeBid cexSt3 "AUC-2" "MI" 60 4).2.teams "MI" = some teamMI
  rw [h4]
  exact cex3_mi

theorem cex4_p1 : cexSt4.players "P001" = some liveP1 := by
  have h4 := placeBid_success cexSt3 "AUC-2" "MI" 60 4 A2 teamMI cex3_auc2 rfl
    cex3_mi cex_hgt2 cex_hpu
  show (placeBid cexSt3 "AUC-2" "MI" 60 4).2.players "P001" = some liveP1
  rw [h4]
  exact cex3_p1

theorem cex4_p2 : cexSt4.players "P002" = some liveP2 := by
  have h4 := placeBid_success cexSt3 "AUC-2" "MI" 60 4 A2 teamMI cex3_auc2 rfl
    cex3_mi cex_hgt2 cex_hpu
  show (placeBid cexSt3 "AUC-2" "MI" 60 4).2.players "P002" = some liveP2
  rw [h4]
  exact cex3_p2

/-- The MI team record after the first settlement. -/
def teamMI5 : Team :=
  { teamMI with
      remainingPurse := teamMI.remainingPurse - A1b.currentBid,
      players := teamMI.players ++ [soldVersion liveP1 "MI" A1b.currentBid] }

theorem cex5_mi : cexSt5.teams "MI" = some teamMI5 := by
  have h5 := completeAuction_sold_teams cexSt4 "AUC-1" 5 A1b "MI" teamMI liveP1
    cex4_auc1 rfl rfl cex4_mi cex4_p1
  show (completeAuction cexSt4 "AUC-1" 5).2.teams "MI" = some teamMI5
  rw [h5, setFun_same]
  rfl

theorem cex5_auc2 : cexSt5.auctions "AUC-2" = some A2b := by
  have hA := completeAuction_auctions cexSt4 "AUC-1" 5 A1b cex4_auc1 rfl
  show (completeAuction cexSt4 "AUC-1" 5).2.auctions "AUC-2" = some A2b
  rw [hA]
  rw [setFun_other _ _ _ _ (by decide)]
  exact cex4_auc2

theorem cex5_p2 : cexSt5.players "P002" = some liveP2 := by
  have hP := completeAuction_sold_players cexSt4 "AUC-1" 5 A1b "MI" teamMI liveP1
    cex4_auc1 rfl rfl cex4_mi cex4_p1
  show (completeAuction cexSt4 "AUC-1" 5).2.players "P002" = some liveP2
  rw [hP]
  rw [setFun_other _ _ _ _ (by decide)]
  exact cex4_p2

theorem cex6_mi : cexSt6.teams "MI" =
    some ({ teamMI5 with
            remainingPurse := teamMI5.remainingPurse - A2b.currentBid,
            players := teamMI5.players ++ [soldVersion liveP2 "MI" A2b.currentBid] }) := by
  have h6 := completeAuction_sold_teams cexSt5 "AUC-2" 6 A2b "MI" teamMI5 liveP2
    cex5_auc2 rfl rfl cex5_mi cex5_p2
  show (completeAuction cexSt5 "AUC-2" 6).2.teams "MI" = _
  rw [h6, setFun_same]

theorem cex5_auc1 : cexSt5.auctions "AUC-1" = some (settled A1b 5) := by
  have hA := completeAuction_auctions cexSt4 "AUC-1" 5 A1b cex4_auc1 rfl
  show (completeAuction cexSt4 "AUC-1" 5).2.auctions "AUC-1" = _
  rw [hA]
  exact setFun_same _ _ _

theorem cex6_auc1 : cexSt6.auctions "AUC-1" = some (settled A1b 5) := by
  have hA := completeAuction_auctions cexSt5 "AUC-2" 6 A2b cex5_auc2 rfl
  show (completeAuction cexSt5 "AUC-2" 6).2.auctions "AUC-1" = _
  rw [hA]
  rw [setFun_other _ _ _ _ (by decide)]
  exact cex5_auc1

/-- C3: purse conservation — in every store reachable from a seeded store
by `createAuction`, `placeBid` and `completeAuction` operations, every
team's remaining purse equals its total purse minus the sum of the
recorded sold prices of the players on its roster. -/
theorem purse_conservation (st : St) (ops : List Op) (h : SeededInit st) :
    ∀ id tm, (run st ops).teams id = some tm →
      tm.remainingPurse = tm.totalPurse - rosterSum tm.players :=
  (stateInv_run st ops (stateInv_seeded st h)).purse

/-- Witness for C3: along the six-operation double-sale trace, Mumbai
Indians' purse satisfies the conservation equation. -/
theorem purse_conservation_witness :
    SeededInit seedState ∧
    (run seedState cexOps).teams "MI" =
      some ({ teamMI5 with
              remainingPurse := teamMI5.remainingPurse - A2b.currentBid,
              players := teamMI5.players ++ [soldVersion liveP2 "MI" A2b.currentBid] }) ∧
    ({ teamMI5 with
       remainingPurse := teamMI5.remainingPurse - A2b.currentBid,
       players := teamMI5.players ++
         [soldVersion liveP2 "MI" A2b.currentBid] } : Team).remainingPurse =
      ({ teamMI5 with
         remainingPurse := teamMI5.remainingPurse - A2b.currentBid,
         players := teamMI5.players ++
           [soldVersion liveP2 "MI" A2b.currentBid] } : Team).totalPurse -
        rosterSum ({ teamMI5 with
          remainingPurse := teamMI5.remainingPurse - A2b.currentBid,
          players := teamMI5.players ++
            [soldVersion liveP2 "MI" A2b.currentBid] } : Team).players :=
  ⟨seedState_init, by rw [run_cexOps]; exact cex6_mi,
   purse_conservation seedState cexOps seedState_init "MI" _
     (by rw [run_cexOps]; exact cex6_mi)⟩

/-- C5: settling a live auction completes it; a second settlement call on
the same auction is rejected (`null`) and reapplies no side effect — the
store after the second call is the store after the first. -/
theorem settle_idempotent (st : St) (aid : String) (n1 n2 : Nat)
    (a : Auction) (ha : st.auctions aid = some a)
    (hl : a.status = AuctionStatus.live) :
    (completeAuction st aid n1).1 = some (settled a n1) ∧
    (settled a n1).status = AuctionStatus.completed ∧
    completeAuction (completeAuction st aid n1).2 aid n2 =
      (none, (completeAuction st aid n1).2) := by
  have hA := completeAuction_auctions st aid n1 a ha hl
  have hlook : (completeAuction st aid n1).2.auctions aid = some (settled a n1) := by
    rw [hA]
    exact setFun_same _ _ _
  refine ⟨?_, rfl, ?_⟩
  · cases hb : a.currentBidder with
    | none => exact completeAuction_noBidder_fst st aid n1 a ha hl hb
    | some b =>
      cases ht : st.teams b with
      | none => rw [completeAuction_soldNoTeam st aid n1 a b ha hl hb ht]
      | some team => exact completeAuction_sold_fst st aid n1 a b team ha hl hb ht
  · exact completeAuction_notLive _ aid n2 (settled a n1) hlook (by simp [settled])

/-- Witness for C5: settling `AUC-1` twice after MI's bid — the second
call returns `null` and changes nothing. -/
theorem settle_idempotent_witness :
    cexSt4.auctions "AUC-1" = some A1b ∧
    A1b.status = AuctionStatus.live ∧
    completeAuction (completeAuction cexSt4 "AUC-1" 5).2 "AUC-1" 6 =
      (none, (completeAuction cexSt4 "AUC-1" 5).2) :=
  ⟨cex4_auc1, rfl, (settle_idempotent cexSt4 "AUC-1" 5 6 A1b cex4_auc1 rfl).2.2⟩

/-- C6: monotonic bids — in every store reachable from a seeded store by
operations whose `Date.now()` readings are non-decreasing, every auction's
bid list has strictly increasing amounts and non-decreasing timestamps. -/
theorem monotonic_bids (st : St) (ops : List Op) (h : SeededInit st)
    (hc : (ops.map opTime).Chain' fun x y => x ≤ y) :
    ∀ id a, (run st ops).auctions id = some a →
      (a.bids.Chain' fun b1 b2 => b1.amount < b2.amount) ∧
      (a.bids.Chain' fun b1 b2 => b1.timestamp ≤ b2.timestamp) := by
  intro id a ha
  refine ⟨(stateInv_run st ops (stateInv_seeded st h)).amounts id a ha, ?_⟩
  have h0 : TimeInv st 0 := timeInv_seeded st h 0
  have hchain : List.Chain (fun x y => x ≤ y) 0 (ops.map opTime) := by
    cases hm : ops.map opTime with
    | nil => exact List.Chain.nil
    | cons x l =>
        rw [hm] at hc
        exact List.Chain.cons (Nat.zero_le x) hc
  obtain ⟨u, hu⟩ := timeInv_run st ops 0 h0 hchain
  exact (hu id a ha).1

/-- Witness for C6: `AUC-1` after the chronological double-sale trace. -/
theorem monotonic_bids_witness :
    SeededInit seedState ∧
    ((cexOps.map opTime).Chain' fun x y => x ≤ y) ∧
    (run seedState cexOps).auctions "AUC-1" = some (settled A1b 5) ∧
    (((settled A1b 5).bids.Chain' fun b1 b2 => b1.amount < b2.amount) ∧
     ((settled A1b 5).bids.Chain' fun b1 b2 => b1.timestamp ≤ b2.timestamp)) :=
  ⟨seedState_init,
   by simp [cexOps, opTime, List.chain'_cons, List.chain'_singleton],
   by rw [run_cexOps]; exact cex6_auc1,
   monotonic_bids seedState cexOps seedState_init
     (by simp [cexOps, opTime, List.chain'_cons, List.chain'_singleton]) "AUC-1" _
     (by rw [run_cexOps]; exact cex6_auc1)⟩

/-- C7: single leader — in every reachable store, an auction's
`currentBidder` is the team of the last bid (`none` iff the bid list is
empty) and `currentBid` is the last bid's amount, or the player's base
price when the list is empty (the stored player snapshot and the players
map agree on that base price). -/
theorem single_leader (st : St) (ops : List Op) (h : SeededInit st) :
    ∀ id a, (run st ops).auctions id = some a →
      a.currentBidder = a.bids.getLast?.map Bid.teamId ∧
      a.currentBid = (a.bids.getLast?.map Bid.amount).getD a.player.basePrice ∧
      ∃ p, (run st ops).players a.playerId = some p ∧
        p.basePrice = a.player.basePrice := by
  intro id a ha
  have hs := stateInv_run st ops (stateInv_seeded st h)
  exact ⟨hs.leader id a ha, hs.curBid id a ha, hs.aucPlayer id a ha⟩

/-- Witness for C7: the settled `AUC-1` carries MI as leader at 60. -/
theorem single_leader_witness :
    SeededInit seedState ∧
    (run seedState cexOps).auctions "AUC-1" = some (settled A1b 5) ∧
    ((settled A1b 5).currentBidder =
        (settled A1b 5).bids.getLast?.map Bid.teamId ∧
     (settled A1b 5).currentBid =
        ((settled A1b 5).bids.getLast?.map Bid.amount).getD
          (settled A1b 5).player.basePrice ∧
     ∃ p, (run seedState cexOps).players (settled A1b 5).playerId = some p ∧
       p.basePrice = (settled A1b 5).player.basePrice) :=
  ⟨seedState_init, by rw [run_cexOps]; exact cex6_auc1,
   single_leader seedState cexOps seedState_init "AUC-1" _
     (by rw [run_cexOps]; exact cex6_auc1)⟩

/-- C10: `createAuction` on a player id absent from the player collection
returns `null` and leaves the whole store unchanged — no auction, no
player change, no activity. -/
theorem createAuction_unknown_player (st : St) (pid : String) (d n : Nat)
    (hp : st.players pid = none) :
    createAuction st pid d n = (none, st) ∧
    (createAuction st pid d n).2.auctions = st.auctions ∧
    (createAuction st pid d n).2.players = st.players ∧
    (createAuction st pid d n).2.teams = st.teams ∧
    (createAuction st pid d n).2.activities = st.activities := by
  have h := createAuction_absent st pid d n hp
  exact ⟨h, by rw [h], by rw [h], by rw [h], by rw [h]⟩

/-- Witness for C10: no player `P999` exists in the seeded store. -/
theorem createAuction_unknown_player_witness :
    seedState.players "P999" = none ∧
    createAuction seedState "P999" 60 1 = (none, seedState) :=
  ⟨rfl, (createAuction_unknown_player seedState "P999" 60 1 rfl).1⟩

/-- C1: `placeBid` checks its five domain preconditions in source order —
auction exists, auction is live, team exists, amount above the current
bid, amount within the team's remaining purse — returns the error message
of the first failing check, and on every failure returns the store
completely unchanged. -/
theorem placeBid_precondition_order (st : St) (aid tid : String) (amt : ℚ)
    (n : Nat) :
    (∀ res st2, placeBid st aid tid amt n = (res, st2) →
      res.success = false → st2 = st) ∧
    (st.auctions aid = none →
      placeBid st aid tid amt n = (⟨false, some "Auction not found", none⟩, st)) ∧
    (∀ a, st.auctions aid = some a → a.status ≠ AuctionStatus.live →
      placeBid st aid tid amt n = (⟨false, some "Auction is not active", none⟩, st)) ∧
    (∀ a, st.auctions aid = some a → a.status = AuctionStatus.live →
      st.teams tid = none →
      placeBid st aid tid amt n = (⟨false, some "Team not found", none⟩, st)) ∧
    (∀ a team, st.auctions aid = some a → a.status = AuctionStatus.live →
      st.teams tid = some team → amt ≤ a.currentBid →
      placeBid st aid tid amt n =
        (⟨false, some "Bid must be higher than current bid", none⟩, st)) ∧
    (∀ a team, st.auctions aid = some a → a.status = AuctionStatus.live →
      st.teams tid = some team → a.currentBid < amt →
      team.remainingPurse < amt →
      placeBid st aid tid amt n =
        (⟨false, some "Insufficient purse remaining", none⟩, st)) := by
  refine ⟨?_, ?_, ?_, ?_, ?_, ?_⟩
  · intro res st2 hpb hfail
    cases ha : st.auctions aid with
    | none =>
        rw [placeBid_noAuction st aid tid amt n ha] at hpb
        injection hpb with h1 h2
        exact h2.symm
    | some a =>
      by_cases hl : a.status = AuctionStatus.live
      · cases ht : st.teams tid with
        | none =>
            rw [placeBid_noTeam st aid tid amt n a ha hl ht] at hpb
            injection hpb with h1 h2
            exact h2.symm
        | some team =>
          by_cases hgt : a.currentBid < amt
          · by_cases hpu : amt ≤ team.remainingPurse
            · rw [placeBid_success st aid tid amt n a team ha hl ht hgt hpu] at hpb
              injection hpb with h1 h2
              rw [← h1] at hfail
              simp at hfail
            · rw [placeBid_insufficient st aid tid amt n a team ha hl ht hgt
                (not_le.mp hpu)] at hpb
              injection hpb with h1 h2
              exact h2.symm
          · rw [placeBid_tooLow st aid tid amt n a team ha hl ht
              (not_lt.mp hgt)] at hpb
            injection hpb with h1 h2
            exact h2.symm
      · rw [placeBid_notLive st aid tid amt n a ha hl] at hpb
        injection hpb with h1 h2
        exact h2.symm
  · intro ha
    exact placeBid_noAuction st aid tid amt n ha
  · intro a ha hl
    exact placeBid_notLive st aid tid amt n a ha hl
  · intro a ha hl ht
    exact placeBid_noTeam st aid tid amt n a ha hl ht
  · intro a team ha hl ht hle
    exact placeBid_tooLow st aid tid amt n a team ha hl ht hle
  · intro a team ha hl ht hgt hpu
    exact placeBid_insufficient st aid tid amt n a team ha hl ht hgt hpu

/-- Witness for C1: an unknown auction id is rejected with the not-found
error and the seeded store is untouched; a bid of 3 against a current bid
of 5 is rejected as too low. -/
theorem placeBid_precondition_order_witness :
    (seedState.auctions "NOPE" = none ∧
      placeBid seedState "NOPE" "MI" 10 1 =
        (⟨false, some "Auction not found", none⟩, seedState)) ∧
    (cexSt2.auctions "AUC-1" = some A1 ∧ A1.status = AuctionStatus.live ∧
      cexSt2.teams "CSK" = some (mkTeam "CSK" "Chennai Super Kings" "CSK") ∧
      (3 : ℚ) ≤ A1.currentBid ∧
      placeBid cexSt2 "AUC-1" "CSK" 3 9 =
        (⟨false, some "Bid must be higher than current bid", none⟩, cexSt2)) :=
  ⟨⟨rfl, (placeBid_precondition_order seedState "NOPE" "MI" 10 1).2.1 rfl⟩,
   ⟨cex2_auc1, rfl, rfl, by norm_num [A1],
    (placeBid_precondition_order cexSt2 "AUC-1" "CSK" 3 9).2.2.2.2.1 A1
      (mkTeam "CSK" "Chennai Super Kings" "CSK") cex2_auc1 rfl rfl
      (by norm_num [A1])⟩⟩

/-- C2: settling a live auction with a leading bidder whose team exists
completes the auction with its end time, marks the player `Sold` with the
leading team and the current bid as sold price, decreases exactly that
team's purse by the current bid, appends the player to that team's
roster, and appends exactly one `win` activity. -/
theorem settleAuction_sold_effects (st : St) (aid : String) (n : Nat)
    (a : Auction) (b : String) (team : Team) (p : Player)
    (ha : st.auctions aid = some a) (hl : a.status = AuctionStatus.live)
    (hb : a.currentBidder = some b) (ht : st.teams b = some team)
    (hpl : st.players a.playerId = some p) :
    (completeAuction st aid n).1 = some (settled a n) ∧
    (settled a n).status = AuctionStatus.completed ∧
    (settled a n).endTime = some n ∧
    (completeAuction st aid n).2.auctions aid = some (settled a n) ∧
    (completeAuction st aid n).2.players a.playerId =
      some (soldVersion p b a.currentBid) ∧
    (soldVersion p b a.currentBid).status = PlayerStatus.Sold ∧
    (soldVersion p b a.currentBid).teamId = some b ∧
    (soldVersion p b a.currentBid).soldPrice = some a.currentBid ∧
    (completeAuction st aid n).2.teams b =
      some ({ team with
              remainingPurse := team.remainingPurse - a.currentBid,
              players := team.players ++ [soldVersion p b a.currentBid] }) ∧
    (∀ id, id ≠ b → (completeAuction st aid n).2.teams id = st.teams id) ∧
    (completeAuction st aid n).2.activities =
      pushActivity st.activities
        { id := "ACT-" ++ toString n
          type := ActivityKind.win
          message := team.shortName ++ " won " ++ a.player.name
            ++ " for ₹" ++ toString a.currentBid ++ "Cr"
          timestamp := n
          teamId := some b
          playerId := some a.playerId
          amount := some a.currentBid } := by
  refine ⟨completeAuction_sold_fst st aid n a b team ha hl hb ht, rfl, rfl,
    ?_, ?_, rfl, rfl, rfl, ?_, ?_,
    completeAuction_sold_activities st aid n a b team ha hl hb ht⟩
  · rw [completeAuction_auctions st aid n a ha hl]
    exact setFun_same _ _ _
  · rw [completeAuction_sold_players st aid n a b team p ha hl hb ht hpl]
    exact setFun_same _ _ _
  · rw [completeAuction_sold_teams st aid n a b team p ha hl hb ht hpl]
    exact setFun_same _ _ _
  · intro id hid
    rw [completeAuction_sold_teams st aid n a b team p ha hl hb ht hpl]
    exact setFun_other _ _ _ _ hid

/-- Witness for C2: the first settlement of the double-sale trace sells
`P001` to MI for 60 and charges MI's purse. -/
theorem settleAuction_sold_effects_witness :
    cexSt4.auctions "AUC-1" = some A1b ∧
    A1b.status = AuctionStatus.live ∧
    A1b.currentBidder = some "MI" ∧
    cexSt4.teams "MI" = some teamMI ∧
    cexSt4.players "P001" = some liveP1 ∧
    ((completeAuction cexSt4 "AUC-1" 5).2.players "P001" =
        some (soldVersion liveP1 "MI" A1b.currentBid) ∧
     (completeAuction cexSt4 "AUC-1" 5).2.teams "MI" =
        some ({ teamMI with
                remainingPurse := teamMI.remainingPurse - A1b.currentBid,
                players := teamMI.players ++
                  [soldVersion liveP1 "MI" A1b.currentBid] })) :=
  ⟨cex4_auc1, rfl, rfl, cex4_mi, cex4_p1,
   (settleAuction_sold_effects cexSt4 "AUC-1" 5 A1b "MI" teamMI liveP1
      cex4_auc1 rfl rfl cex4_mi cex4_p1).2.2.2.2.1,
   (settleAuction_sold_effects cexSt4 "AUC-1" 5 A1b "MI" teamMI liveP1
      cex4_auc1 rfl rfl cex4_mi cex4_p1).2.2.2.2.2.2.2.2.1⟩

/-- C8: a successful `placeBid` appends exactly one bid with the given
amount and team, updates `currentBid`/`currentBidder`, prepends one `bid`
activity, returns the updated auction, and leaves every team record
(purse and roster), every player record and every other auction
unchanged. -/
theorem placeBid_success_frame (st : St) (aid tid : String) (amt : ℚ)
    (n : Nat) (a : Auction) (team : Team)
    (ha : st.auctions aid = some a) (hl : a.status = AuctionStatus.live)
    (ht : st.teams tid = some team)
    (hgt : a.currentBid < amt) (hpu : amt ≤ team.remainingPurse) :
    (placeBid st aid tid amt n).1 =
      ⟨true, none, some
        { a with
            bids := a.bids ++
              [{ id := "BID-" ++ toString n
                 auctionId := aid
                 playerId := a.playerId
                 teamId := tid
                 teamName := team.name
                 amount := amt
                 timestamp := n }]
            currentBid := amt
            currentBidder := some tid }⟩ ∧
    (placeBid st aid tid amt n).2.auctions aid =
      some { a with
              bids := a.bids ++
                [{ id := "BID-" ++ toString n
                   auctionId := aid
                   playerId := a.playerId
                   teamId := tid
                   teamName := team.name
                   amount := amt
                   timestamp := n }]
              currentBid := amt
              currentBidder := some tid } ∧
    (∀ id, id ≠ aid →
      (placeBid st aid tid amt n).2.auctions id = st.auctions id) ∧
    (placeBid st aid tid amt n).2.teams = st.teams ∧
    (placeBid st aid tid amt n).2.players = st.players ∧
    (placeBid st aid tid amt n).2.activities =
      pushActivity st.activities
        { id := "ACT-" ++ toString n
          type := ActivityKind.bid
          message := team.shortName ++ " bid ₹" ++ toString amt
            ++ "Cr for " ++ a.player.name
          timestamp := n
          teamId := some tid
          playerId := some a.playerId
          amount := some amt } := by
  have h := placeBid_success st aid tid amt n a team ha hl ht hgt hpu
  rw [h]
  refine ⟨rfl, ?_, ?_, rfl, rfl, rfl⟩
  · exact setFun_same _ _ _
  · intro id hid
    exact setFun_other _ _ _ _ hid

/-- Witness for C8: MI's successful bid of 60 on `AUC-1` leaves the teams
and players maps untouched. -/
theorem placeBid_success_frame_witness :
    cexSt2.auctions "AUC-1" = some A1 ∧
    A1.status = AuctionStatus.live ∧
    cexSt2.teams "MI" = some teamMI ∧
    A1.currentBid < 60 ∧
    (60 : ℚ) ≤ teamMI.remainingPurse ∧
    ((placeBid cexSt2 "AUC-1" "MI" 60 3).2.teams = cexSt2.teams ∧
     (placeBid cexSt2 "AUC-1" "MI" 60 3).2.players = cexSt2.players) :=
  ⟨cex2_auc1, rfl, cex2_mi, cex_hgt1, cex_hpu,
   (placeBid_success_frame cexSt2 "AUC-1" "MI" 60 3 A1 teamMI cex2_auc1 rfl
      cex2_mi cex_hgt1 cex_hpu).2.2.2.1,
   (placeBid_success_frame cexSt2 "AUC-1" "MI" 60 3 A1 teamMI cex2_auc1 rfl
      cex2_mi cex_hgt1 cex_hpu).2.2.2.2.1⟩

/-- The auction record constructed by `createAuction` for player `p`. -/
def createdAuction (pid : String) (p : Player) (d n : Nat) : Auction :=
  { id := "AUC-" ++ toString n
    playerId := pid
    player := p
    currentBid := p.basePrice
    currentBidder := none
    bids := []
    status := AuctionStatus.live
    startTime := n
    endTime := none
    timerDuration := d }

/-- C9: round trip — creating an auction for an `Unsold` player with base
price X yields a live auction with `currentBid = X` and no bids;
immediately settling it puts the player back to `Unsold`, leaves every
team (purse and roster) unchanged, and appends one `auction_end`
activity. -/
theorem create_settle_roundtrip (st : St) (pid : String) (d n1 n2 : Nat)
    (p : Player) (hp : st.players pid = some p)
    (hu : p.status = PlayerStatus.Unsold) :
    (createAuction st pid d n1).1 = some (createdAuction pid p d n1) ∧
    (createdAuction pid p d n1).status = AuctionStatus.live ∧
    (createdAuction pid p d n1).currentBid = p.basePrice ∧
    (createdAuction pid p d n1).bids = [] ∧
    (completeAuction (createAuction st pid d n1).2
        ("AUC-" ++ toString n1) n2).2.players pid =
      some ({ p with
              status := PlayerStatus.Unsold
              teamId := none
              soldPrice := none }) ∧
    (completeAuction (createAuction st pid d n1).2
        ("AUC-" ++ toString n1) n2).2.teams = st.teams ∧
    (completeAuction (createAuction st pid d n1).2
        ("AUC-" ++ toString n1) n2).2.activities =
      pushActivity (createAuction st pid d n1).2.activities
        { id := "ACT-" ++ toString n2
          type := ActivityKind.auction_end
          message := p.name ++ " went unsold"
          timestamp := n2
          teamId := none
          playerId := some pid
          amount := none } := by
  have hC := createAuction_success st pid d n1 p hp hu
  have hauc : (createAuction st pid d n1).2.auctions ("AUC-" ++ toString n1) =
      some (createdAuction pid p d n1) := by
    rw [hC]
    exact setFun_same _ _ _
  have hpl1 : (createAuction st pid d n1).2.players pid =
      some ({ p with
              status := PlayerStatus.Live
              teamId := none
              soldPrice := none }) := by
    rw [hC]
    exact setFun_same _ _ _
  refine ⟨by rw [hC]; rfl, rfl, rfl, rfl, ?_, ?_, ?_⟩
  · rw [completeAuction_noBidder_players _ _ n2 (createdAuction pid p d n1)
      ({ p with status := PlayerStatus.Live, teamId := none, soldPrice := none })
      hauc rfl rfl hpl1]
    rw [show (createdAuction pid p d n1).playerId = pid from rfl]
    rw [setFun_same]
    rfl
  · rw [completeAuction_noBidder_teams _ _ n2 (createdAuction pid p d n1)
      hauc rfl rfl]
    rw [hC]
  · rw [completeAuction_noBidder_activities _ _ n2 (createdAuction pid p d n1)
      hauc rfl rfl]
    rfl

/-- Witness for C9: creating and immediately settling an auction for the
seeded `P001` restores it to `Unsold` and leaves all teams untouched. -/
theorem create_settle_roundtrip_witness :
    seedState.players "P001" = some seedP1 ∧
    seedP1.status = PlayerStatus.Unsold ∧
    ((createAuction seedState "P001" 60 1).1 =
        some (createdAuction "P001" seedP1 60 1) ∧
     (completeAuction (createAuction seedState "P001" 60 1).2
         ("AUC-" ++ toString 1) 2).2.players "P001" =
       some ({ seedP1 with
               status := PlayerStatus.Unsold
               teamId := none
               soldPrice := none }) ∧
     (completeAuction (createAuction seedState "P001" 60 1).2
         ("AUC-" ++ toString 1) 2).2.teams = seedState.teams) :=
  ⟨rfl, rfl,
   (create_settle_roundtrip seedState "P001" 60 1 2 seedP1 rfl rfl).1,
   (create_settle_roundtrip seedState "P001" 60 1 2 seedP1 rfl rfl).2.2.2.2.1,
   (create_settle_roundtrip seedState "P001" 60 1 2 seedP1 rfl rfl).2.2.2.2.2.1⟩

/-- Counterexample for C4: from the seeded store, MI leads two
concurrently live auctions with bids of 60 each against a purse of 100;
after both settle, MI's remaining purse is −20, violating
`0 ≤ remainingPurse`. -/
theorem purse_lower_bound_cex :
    SeededInit seedState ∧
    ((run seedState cexOps).teams "MI").map Team.remainingPurse =
      some (-20) ∧
    ¬ (0 : ℚ) ≤ (-20 : ℚ) := by
  refine ⟨seedState_init, ?_, by norm_num⟩
  rw [run_cexOps]
  rw [cex6_mi]
  simp only [Option.map_some']
  rw [Option.some.injEq]
  show teamMI5.remainingPurse - A2b.currentBid = -20
  norm_num [teamMI5, teamMI, mkTeam, A1b, A2b, A1, A2]

/-- C4 (amended): in every store reachable from a seeded store,
`remainingPurse ≤ totalPurse` always holds; and when at most one auction
is live at any point along the operation sequence, `0 ≤ remainingPurse`
also holds.  (The unrestricted lower bound fails when a team leads more
than one concurrently live auction, see the counterexample.) -/
theorem purse_bounds_amended (st : St) (ops : List Op) (h : SeededInit st) :
    (∀ id tm, (run st ops).teams id = some tm →
      tm.remainingPurse ≤ tm.totalPurse) ∧
    ((∀ k, AtMostOneLive (run st (List.take k ops))) →
      ∀ id tm, (run st ops).teams id = some tm → 0 ≤ tm.remainingPurse) := by
  constructor
  · intro id tm hm
    have hs := stateInv_run st ops (stateInv_seeded st h)
    have h1 := hs.purse id tm hm
    have h2 : 0 ≤ rosterSum tm.players := by
      apply List.sum_nonneg
      intro x hx
      rw [List.mem_map] at hx
      obtain ⟨q, hq, hqe⟩ := hx
      obtain ⟨y, hy1, hy2⟩ := hs.roster id tm hm q hq
      rw [← hqe, hy1]
      exact le_of_lt hy2
    rw [h1]
    linarith
  · intro hone id tm hm
    exact (soloInv_run st ops (soloInv_seeded st h) hone).nonneg id tm hm

/-- Witness for C4 (amended): a single-auction trace keeps MI's purse
within [0, totalPurse]. -/
theorem purse_bounds_amended_witness :
    SeededInit seedState ∧
    (∀ k, AtMostOneLive (run seedState (List.take k [Op.create "P001" 60 1]))) ∧
    teamMI.remainingPurse ≤ teamMI.totalPurse ∧
    (0 : ℚ) ≤ teamMI.remainingPurse := by
  have hone : ∀ k,
      AtMostOneLive (run seedState (List.take k [Op.create "P001" 60 1])) := by
    intro k
    cases k with
    | zero =>
        intro id1 id2 a1 a2 h1 h2 l1 l2
        exact absurd h1 (by simp [run, seedState])
    | succ k =>
        have htake : List.take (k + 1) [Op.create "P001" 60 1] =
            [Op.create "P001" 60 1] := by simp
        rw [htake]
        intro id1 id2 a1 a2 h1 h2 l1 l2
        have e : (run seedState [Op.create "P001" 60 1]).auctions =
            setFun seedState.auctions "AUC-1" A1 := rfl
        rw [e] at h1 h2
        by_cases e1 : id1 = "AUC-1"
        · by_cases e2 : id2 = "AUC-1"
          · rw [e1, e2]
          · rw [setFun_other _ _ _ _ e2] at h2
            exact absurd h2 (by simp [seedState])
        · rw [setFun_other _ _ _ _ e1] at h1
          exact absurd h1 (by simp [seedState])
  refine ⟨seedState_init, hone, ?_, ?_⟩
  · exact (purse_bounds_amended seedState [Op.create "P001" 60 1]
      seedState_init).1 "MI" teamMI rfl
  · exact (purse_bounds_amended seedState [Op.create "P001" 60 1]
      seedState_init).2 hone "MI" teamMI rfl

end IplAuction